import Mathlib

/-!
Verification of the VerilogLinter pipeline (lexer, recursive-descent parser,
static linter) against its natural-language specification.  The definitions
below are a shallow embedding of the C++ sources: `Lexer.cpp`, `Parser.cpp`,
`Linter.cpp` and `utils.cpp`.  Machine integers (`uint64_t`, `uint32_t`) are
modelled as `Nat` with explicit reduction modulo `2 ^ 64` / `2 ^ 32` at the
points where the C++ arithmetic can wrap.  Fatal parse errors (`exit(1)`)
are modelled as error results.  The loops of the C++ code are modelled with
an explicit fuel parameter that is always chosen large enough at the call
sites that matter; running out of fuel is a dedicated error value.
-/

namespace VerilogLint

/-! ## Tokens (Lexer.h) -/

inductive TokenType where
  | Identifier
  | Keyword
  | NumberLiteral
  | Symbol
  | EndToken
deriving DecidableEq

structure Token where
  type : TokenType
  content : String
deriving DecidableEq

/-! ## Lexer (Lexer.cpp)

The C++ lexer walks a raw character buffer with two pointers.  We model the
remaining input as a `List Char`.  `get_next_token` first skips whitespace
and comments (the outer `while (true)` retry loop of the C++ code, modelled
with fuel bounded by the input length: every retry consumes at least two
characters) and then extracts one token. -/

def is_digit_character (c : Char) : Bool :=
  '0' ≤ c ∧ c ≤ '9'

def is_alphabet_character (c : Char) : Bool :=
  (97 ≤ (c.toNat ||| 32) ∧ (c.toNat ||| 32) ≤ 122) ∨ c = '_'

def is_whitespace_character (c : Char) : Bool :=
  c = ' ' ∨ c = '\n' ∨ c = '\t' ∨ c = '\r'

def is_verilog_keyword (s : String) : Bool :=
  s = "module" ∨ s = "endmodule" ∨ s = "input" ∨ s = "output" ∨
  s = "inout" ∨ s = "reg" ∨ s = "wire" ∨ s = "always" ∨
  s = "posedge" ∨ s = "negedge" ∨ s = "begin" ∨ s = "end" ∨
  s = "if" ∨ s = "else" ∨ s = "parameter" ∨ s = "or" ∨
  s = "case" ∨ s = "endcase" ∨ s = "default"

/-- Block-comment skipping: advance until the closing star-slash pair; with
fewer than two characters left the C++ loop exits without consuming them. -/
def skip_block_comment : List Char → List Char
  | [] => []
  | [c] => [c]
  | c1 :: c2 :: rest =>
      if c1 = '*' ∧ c2 = '/' then rest else skip_block_comment (c2 :: rest)

/-- The whitespace/comment skipping retry loop of `get_next_token`. -/
def skip_junk_fuel : Nat → List Char → List Char
  | 0, cs => cs
  | fuel + 1, cs =>
      match cs.dropWhile is_whitespace_character with
      | [] => []
      | c :: rest =>
          if c = '/' then
            match rest with
            | c2 :: rest2 =>
                if c2 = '/' then
                  skip_junk_fuel fuel (rest2.dropWhile (fun ch => ¬ ch = '\n'))
                else if c2 = '*' then
                  skip_junk_fuel fuel (skip_block_comment rest2)
                else c :: rest
            | [] => c :: rest
          else c :: rest

def is_number_token_character (c : Char) : Bool :=
  is_digit_character c ∨ is_alphabet_character c ∨ c = '\''

def is_word_character (c : Char) : Bool :=
  is_alphabet_character c ∨ is_digit_character c

/-- Token extraction once whitespace and comments have been skipped
(the lower half of `LexicalAnalyzer::get_next_token`). -/
def extract_token : List Char → Token × List Char
  | [] => (⟨TokenType.EndToken, ""⟩, [])
  | c :: rest =>
      if is_digit_character c then
        (⟨TokenType.NumberLiteral, ⟨(c :: rest).takeWhile is_number_token_character⟩⟩,
         (c :: rest).dropWhile is_number_token_character)
      else if is_alphabet_character c then
        let extracted_text : String := ⟨(c :: rest).takeWhile is_word_character⟩
        (⟨if is_verilog_keyword extracted_text then TokenType.Keyword else TokenType.Identifier,
          extracted_text⟩,
         (c :: rest).dropWhile is_word_character)
      else
        match rest with
        | c2 :: rest2 =>
            if (c = '<' ∨ c = '=') ∧ c2 = '=' then
              (⟨TokenType.Symbol, ⟨[c, c2]⟩⟩, rest2)
            else (⟨TokenType.Symbol, ⟨[c]⟩⟩, rest)
        | [] => (⟨TokenType.Symbol, ⟨[c]⟩⟩, [])

/-- `LexicalAnalyzer::get_next_token`: returns the next token and the
remaining input. -/
def get_next_token (cs : List Char) : Token × List Char :=
  extract_token (skip_junk_fuel cs.length cs)

/-- Run the lexer to the end of the input, producing the token stream that
the parser consumes. -/
def tokenize_fuel : Nat → List Char → List Token
  | 0, _ => []
  | fuel + 1, cs =>
      match get_next_token cs with
      | (t, rest) => if t.type = TokenType.EndToken then [] else t :: tokenize_fuel fuel rest

def tokenize (s : String) : List Token :=
  tokenize_fuel (s.data.length + 1) s.data

/-! ## Number parser (utils.cpp / Linter.cpp, `parse_verilog_number`)

`std::from_chars` parses the maximal prefix of in-base digits; it fails when
that prefix is empty or when the value overflows the target integer type,
and it succeeds (ignoring trailing junk) otherwise.  The call for the bit
width ignores the error code, so a failed width parse leaves the default 32
in place. -/

structure ConstantValue where
  numeric_value : Nat
  bit_width_size : Nat
deriving DecidableEq

def digit_value? (base : Nat) (c : Char) : Option Nat :=
  if '0' ≤ c ∧ c ≤ '9' ∧ c.toNat - '0'.toNat < base then
    Option.some (c.toNat - '0'.toNat)
  else if base = 16 ∧ 'a' ≤ c ∧ c ≤ 'f' then Option.some (c.toNat - 'a'.toNat + 10)
  else if base = 16 ∧ 'A' ≤ c ∧ c ≤ 'F' then Option.some (c.toNat - 'A'.toNat + 10)
  else Option.none

/-- Model of `std::from_chars` on `[first, last)` with the given base and an
unsigned target type whose exclusive upper bound is `limit`. -/
def from_chars_value? (base : Nat) (cs : List Char) (limit : Nat) : Option Nat :=
  let digits := cs.takeWhile (fun c => (digit_value? base c).isSome)
  if digits.isEmpty then Option.none
  else
    let v := digits.foldl (fun acc c => acc * base + ((digit_value? base c).getD 0)) 0
    if v < limit then Option.some v else Option.none

/-- The manual binary accumulator loop of `parse_verilog_number` (the
left-shift on a `uint64_t` wraps modulo `2 ^ 64`). -/
def parse_binary_value : List Char → Nat → Option Nat
  | [], v => Option.some v
  | c :: cs, v =>
      if c = '0' ∨ c = '1' then
        parse_binary_value cs ((2 * v + (if c = '1' then 1 else 0)) % 2 ^ 64)
      else Option.none

/-- Shared tail of `parse_verilog_number`: strip underscores from the digit
part and convert it in the chosen base. -/
def parse_number_value_part (numeric_base parsed_bit_width : Nat)
    (value_string_part : List Char) : Option ConstantValue :=
  let cleaned_value_string := value_string_part.filter (fun c => ¬ c = '_')
  if numeric_base = 2 then
    match parse_binary_value cleaned_value_string 0 with
    | Option.some v => Option.some ⟨v, parsed_bit_width⟩
    | Option.none => Option.none
  else
    match from_chars_value? numeric_base cleaned_value_string (2 ^ 64) with
    | Option.some v => Option.some ⟨v, parsed_bit_width⟩
    | Option.none => Option.none

/-- `parse_verilog_number` from utils.cpp (identical copy in Linter.cpp). -/
def parse_verilog_number (input_string : String) : Option ConstantValue :=
  let input := input_string.data
  if input.isEmpty then Option.none
  else
    match input.findIdx? (fun c => c = '\'') with
    | Option.none => parse_number_value_part 10 32 input
    | Option.some tick_character_position =>
        let parsed_bit_width :=
          if 0 < tick_character_position then
            match from_chars_value? 10 (input.take tick_character_position) (2 ^ 32) with
            | Option.some w => w
            | Option.none => 32
          else 32
        match input.drop (tick_character_position + 1) with
        | [] => Option.none
        | base_character :: value_string_part =>
            let numeric_base :=
              if base_character = 'h' ∨ base_character = 'H' then 16
              else if base_character = 'b' ∨ base_character = 'B' then 2
              else if base_character = 'o' ∨ base_character = 'O' then 8
              else 10
            parse_number_value_part numeric_base parsed_bit_width value_string_part

/-! ## AST (Parser.h)

`BinaryExpression` and the four statement variants are arena pointers in the
C++ code; here the indirection is flattened into ordinary inductive types.
The recursive statement containers (`std::pmr::vector<Statement>`,
`std::optional<Statement>`, vector of case branches) are rendered as mutual
inductives so that structural recursion over them is available. -/

inductive Expression where
  | Identifier (identifier_name : String)
  | Number (numeric_value_string : String)
  | BinaryExpression (operator_symbol : String) (left_expression right_expression : Expression)
deriving DecidableEq

mutual
inductive Statement where
  | NonBlockingAssignment (left_hand_side_expression right_hand_side_expression : Expression)
  | IfStatement (condition_expression : Expression) (true_branch_statement : Statement)
      (false_branch_statement : OptStatement)
  | BlockStatement (contained_statements : StatementList)
  | CaseStatement (condition_expression : Expression) (case_branches : CaseBranchList)
      (default_branch_statement : OptStatement)
deriving DecidableEq

inductive StatementList where
  | nil
  | cons (head : Statement) (tail : StatementList)
deriving DecidableEq

inductive OptStatement where
  | none
  | some (s : Statement)
deriving DecidableEq

inductive CaseBranchList where
  | nil
  | cons (selector : Expression) (body : Statement) (tail : CaseBranchList)
deriving DecidableEq
end

inductive EdgeType where
  | None
  | PositiveEdge
  | NegativeEdge
deriving DecidableEq

/-- A sensitivity entry `(edge, Identifier{name})`; the inner `Identifier`
struct is represented by its name string. -/
structure Sensitivity where
  edge_trigger_type : EdgeType
  signal_identifier : String
deriving DecidableEq

structure AlwaysBlock where
  sensitivity_list : List Sensitivity
  body_statement : Statement
deriving DecidableEq

/-- `AlwaysBlock::is_combinational_block`. -/
def is_combinational_block (ab : AlwaysBlock) : Bool :=
  ab.sensitivity_list.all (fun s => s.edge_trigger_type = EdgeType.None)

structure BitRange where
  most_significant_bit : Expression
  least_significant_bit : Expression
deriving DecidableEq

inductive PortDirection where
  | Input
  | Output
  | InOut
deriving DecidableEq

structure Port where
  direction : PortDirection
  is_register_type : Bool
  bit_range : Option BitRange
  port_name : String
deriving DecidableEq

structure Parameter where
  parameter_name : String
  default_value_expression : Expression
deriving DecidableEq

/-- `ModuleItem` is `std::variant<AlwaysBlock *>`: the only module item the
parser can produce is an always block. -/
inductive ModuleItem where
  | alwaysBlock (block : AlwaysBlock)
deriving DecidableEq

structure VModule where
  module_name : String
  module_parameters : List Parameter
  module_ports : List Port
  module_items : List ModuleItem
deriving DecidableEq

/-! ## Parser (Parser.cpp)

A parse function consumes a token list and either returns a value together
with the remaining tokens or a fatal error (the C++ code prints a diagnostic
and calls `exit(1)`).  `current_token` at the end of the stream is the
`EndToken` sentinel, matching the lexer behaviour. -/

inductive ParseError where
  | syntaxError (expected got : String)
  | statementError (got : String)
  | unknownModuleItem (got : String)
  | outOfFuel
deriving DecidableEq

inductive PResult (α : Type) where
  | ok (value : α) (rest : List Token)
  | error (e : ParseError)
deriving DecidableEq

def current_token : List Token → Token
  | [] => ⟨TokenType.EndToken, ""⟩
  | t :: _ => t

/-- `VerilogParser::match_and_consume_token`: on success the consumed stream,
otherwise `none` with the stream untouched.  An empty `expected_content`
matches any content of the given type. -/
def match_and_consume_token? (ts : List Token) (expected_type : TokenType)
    (expected_content : String) : Option (List Token) :=
  if (current_token ts).type = expected_type ∧
      (expected_content = "" ∨ (current_token ts).content = expected_content) then
    Option.some ts.tail
  else Option.none

/-- `VerilogParser::expect_token_or_fail`: fatal on mismatch. -/
def expect_token_or_fail (ts : List Token) (expected_type : TokenType)
    (expected_content : String) : PResult Unit :=
  match match_and_consume_token? ts expected_type expected_content with
  | Option.some ts' => PResult.ok () ts'
  | Option.none => PResult.error (ParseError.syntaxError expected_content (current_token ts).content)

/-- `VerilogParser::parse_expression`: a primary (identifier or number,
otherwise the default-constructed expression, i.e. an identifier with empty
name) optionally followed by one of the operators `+`, `-`, `==` and a
right-recursive tail. -/
def parse_expression : Nat → List Token → PResult Expression
  | 0, _ => PResult.error ParseError.outOfFuel
  | fuel + 1, ts =>
      let (left_side_expression, ts1) :=
        if (current_token ts).type = TokenType.Identifier then
          (Expression.Identifier (current_token ts).content, ts.tail)
        else if (current_token ts).type = TokenType.NumberLiteral then
          (Expression.Number (current_token ts).content, ts.tail)
        else (Expression.Identifier "", ts)
      let t := current_token ts1
      if t.type = TokenType.Symbol ∧ (t.content = "+" ∨ t.content = "-" ∨ t.content = "==") then
        match parse_expression fuel ts1.tail with
        | PResult.ok right_side_expression ts2 =>
            PResult.ok (Expression.BinaryExpression t.content left_side_expression right_side_expression) ts2
        | PResult.error e => PResult.error e
      else PResult.ok left_side_expression ts1

mutual
/-- `VerilogParser::parse_statement_definition`. -/
def parse_statement_definition : Nat → List Token → PResult Statement
  | 0, _ => PResult.error ParseError.outOfFuel
  | fuel + 1, ts =>
      match match_and_consume_token? ts TokenType.Keyword "begin" with
      | Option.some ts1 =>
          match parse_statement_list fuel ts1 with
          | PResult.ok ss ts2 =>
              (match expect_token_or_fail ts2 TokenType.Keyword "end" with
               | PResult.ok _ ts3 => PResult.ok (Statement.BlockStatement ss) ts3
               | PResult.error e => PResult.error e)
          | PResult.error e => PResult.error e
      | Option.none =>
      match match_and_consume_token? ts TokenType.Keyword "if" with
      | Option.some ts1 =>
          (match expect_token_or_fail ts1 TokenType.Symbol "(" with
           | PResult.ok _ ts2 =>
               (match parse_expression fuel ts2 with
                | PResult.ok condition_expression ts3 =>
                    (match expect_token_or_fail ts3 TokenType.Symbol ")" with
                     | PResult.ok _ ts4 =>
                         (match parse_statement_definition fuel ts4 with
                          | PResult.ok true_branch ts5 =>
                              (match match_and_consume_token? ts5 TokenType.Keyword "else" with
                               | Option.some ts6 =>
                                   (match parse_statement_definition fuel ts6 with
                                    | PResult.ok false_branch ts7 =>
                                        PResult.ok (Statement.IfStatement condition_expression
                                          true_branch (OptStatement.some false_branch)) ts7
                                    | PResult.error e => PResult.error e)
                               | Option.none =>
                                   PResult.ok (Statement.IfStatement condition_expression
                                     true_branch OptStatement.none) ts5)
                          | PResult.error e => PResult.error e)
                     | PResult.error e => PResult.error e)
                | PResult.error e => PResult.error e)
           | PResult.error e => PResult.error e)
      | Option.none =>
      match match_and_consume_token? ts TokenType.Keyword "case" with
      | Option.some ts1 =>
          (match expect_token_or_fail ts1 TokenType.Symbol "(" with
           | PResult.ok _ ts2 =>
               (match parse_expression fuel ts2 with
                | PResult.ok condition_expression ts3 =>
                    (match expect_token_or_fail ts3 TokenType.Symbol ")" with
                     | PResult.ok _ ts4 =>
                         (match parse_case_arms fuel ts4 with
                          | PResult.ok (branches, default_branch) ts5 =>
                              (match expect_token_or_fail ts5 TokenType.Keyword "endcase" with
                               | PResult.ok _ ts6 =>
                                   PResult.ok (Statement.CaseStatement condition_expression
                                     branches default_branch) ts6
                               | PResult.error e => PResult.error e)
                          | PResult.error e => PResult.error e)
                     | PResult.error e => PResult.error e)
                | PResult.error e => PResult.error e)
           | PResult.error e => PResult.error e)
      | Option.none =>
      if (current_token ts).type = TokenType.Identifier then
        let left_hand_side := Expression.Identifier (current_token ts).content
        match expect_token_or_fail ts.tail TokenType.Symbol "<=" with
        | PResult.ok _ ts2 =>
            (match parse_expression fuel ts2 with
             | PResult.ok right_hand_side ts3 =>
                 (match expect_token_or_fail ts3 TokenType.Symbol ";" with
                  | PResult.ok _ ts4 =>
                      PResult.ok (Statement.NonBlockingAssignment left_hand_side right_hand_side) ts4
                  | PResult.error e => PResult.error e)
             | PResult.error e => PResult.error e)
        | PResult.error e => PResult.error e
      else PResult.error (ParseError.statementError (current_token ts).content)

/-- The `begin … end` statement loop: parse statements until the `end`
keyword is the lookahead. -/
def parse_statement_list : Nat → List Token → PResult StatementList
  | 0, _ => PResult.error ParseError.outOfFuel
  | fuel + 1, ts =>
      if (current_token ts).type = TokenType.Keyword ∧ (current_token ts).content = "end" then
        PResult.ok StatementList.nil ts
      else
        match parse_statement_definition fuel ts with
        | PResult.ok s ts1 =>
            (match parse_statement_list fuel ts1 with
             | PResult.ok rest ts2 => PResult.ok (StatementList.cons s rest) ts2
             | PResult.error e => PResult.error e)
        | PResult.error e => PResult.error e

/-- The `case` arm loop: arms until the `endcase` keyword; a later `default`
arm overwrites an earlier one. -/
def parse_case_arms : Nat → List Token → PResult (CaseBranchList × OptStatement)
  | 0, _ => PResult.error ParseError.outOfFuel
  | fuel + 1, ts =>
      if (current_token ts).type = TokenType.Keyword ∧ (current_token ts).content = "endcase" then
        PResult.ok (CaseBranchList.nil, OptStatement.none) ts
      else
        match match_and_consume_token? ts TokenType.Keyword "default" with
        | Option.some ts1 =>
            (match expect_token_or_fail ts1 TokenType.Symbol ":" with
             | PResult.ok _ ts2 =>
                 (match parse_statement_definition fuel ts2 with
                  | PResult.ok s ts3 =>
                      (match parse_case_arms fuel ts3 with
                       | PResult.ok (branches, later_default) ts4 =>
                           PResult.ok (branches,
                             match later_default with
                             | OptStatement.none => OptStatement.some s
                             | d => d) ts4
                       | PResult.error e => PResult.error e)
                  | PResult.error e => PResult.error e)
             | PResult.error e => PResult.error e)
        | Option.none =>
            match parse_expression fuel ts with
            | PResult.ok selector ts1 =>
                (match expect_token_or_fail ts1 TokenType.Symbol ":" with
                 | PResult.ok _ ts2 =>
                     (match parse_statement_definition fuel ts2 with
                      | PResult.ok body ts3 =>
                          (match parse_case_arms fuel ts3 with
                           | PResult.ok (branches, d) ts4 =>
                               PResult.ok (CaseBranchList.cons selector body branches, d) ts4
                           | PResult.error e => PResult.error e)
                      | PResult.error e => PResult.error e)
                 | PResult.error e => PResult.error e)
            | PResult.error e => PResult.error e
end

/-- The sensitivity-list loop of `parse_always_block_definition`: entries
until the closing parenthesis; a signal name may be an identifier or any
symbol; separators `or` and `,` are consumed opportunistically. -/
def parse_sensitivity_list : Nat → List Token → PResult (List Sensitivity)
  | 0, _ => PResult.error ParseError.outOfFuel
  | fuel + 1, ts =>
      if (current_token ts).type = TokenType.Symbol ∧ (current_token ts).content = ")" then
        PResult.ok [] ts
      else
        let (edge, ts1) :=
          match match_and_consume_token? ts TokenType.Keyword "posedge" with
          | Option.some ts' => (EdgeType.PositiveEdge, ts')
          | Option.none =>
              match match_and_consume_token? ts TokenType.Keyword "negedge" with
              | Option.some ts' => (EdgeType.NegativeEdge, ts')
              | Option.none => (EdgeType.None, ts)
        let (entries, ts2) :=
          if (current_token ts1).type = TokenType.Identifier ∨
              (current_token ts1).type = TokenType.Symbol then
            ([Sensitivity.mk edge (current_token ts1).content], ts1.tail)
          else ([], ts1)
        let ts3 :=
          match match_and_consume_token? ts2 TokenType.Keyword "or" with
          | Option.some ts' => ts'
          | Option.none => ts2
        let ts4 :=
          match match_and_consume_token? ts3 TokenType.Symbol "," with
          | Option.some ts' => ts'
          | Option.none => ts3
        match parse_sensitivity_list fuel ts4 with
        | PResult.ok rest ts5 => PResult.ok (entries ++ rest) ts5
        | PResult.error e => PResult.error e

/-- `VerilogParser::parse_always_block_definition`. -/
def parse_always_block_definition (fuel : Nat) (ts : List Token) : PResult AlwaysBlock :=
  match expect_token_or_fail ts TokenType.Keyword "always" with
  | PResult.ok _ ts1 =>
      (match expect_token_or_fail ts1 TokenType.Symbol "@" with
       | PResult.ok _ ts2 =>
           (match expect_token_or_fail ts2 TokenType.Symbol "(" with
            | PResult.ok _ ts3 =>
                (match parse_sensitivity_list fuel ts3 with
                 | PResult.ok sensitivities ts4 =>
                     (match expect_token_or_fail ts4 TokenType.Symbol ")" with
                      | PResult.ok _ ts5 =>
                          (match parse_statement_definition fuel ts5 with
                           | PResult.ok body ts6 =>
                               PResult.ok (AlwaysBlock.mk sensitivities body) ts6
                           | PResult.error e => PResult.error e)
                      | PResult.error e => PResult.error e)
                 | PResult.error e => PResult.error e)
            | PResult.error e => PResult.error e)
       | PResult.error e => PResult.error e)
  | PResult.error e => PResult.error e

/-- `VerilogParser::parse_port_definition`. -/
def parse_port_definition (fuel : Nat) (ts : List Token) : PResult Port :=
  let (direction, ts1) :=
    match match_and_consume_token? ts TokenType.Keyword "input" with
    | Option.some ts' => (PortDirection.Input, ts')
    | Option.none =>
        match match_and_consume_token? ts TokenType.Keyword "output" with
        | Option.some ts' => (PortDirection.Output, ts')
        | Option.none => (PortDirection.Input, ts)
  let (is_register_type, ts2) :=
    match match_and_consume_token? ts1 TokenType.Keyword "reg" with
    | Option.some ts' => (true, ts')
    | Option.none => (false, ts1)
  match match_and_consume_token? ts2 TokenType.Symbol "[" with
  | Option.some ts3 =>
      (match parse_expression fuel ts3 with
       | PResult.ok msb ts4 =>
           (match expect_token_or_fail ts4 TokenType.Symbol ":" with
            | PResult.ok _ ts5 =>
                (match parse_expression fuel ts5 with
                 | PResult.ok lsb ts6 =>
                     (match expect_token_or_fail ts6 TokenType.Symbol "]" with
                      | PResult.ok _ ts7 =>
                          let port_name := (current_token ts7).content
                          (match expect_token_or_fail ts7 TokenType.Identifier "" with
                           | PResult.ok _ ts8 =>
                               PResult.ok (Port.mk direction is_register_type
                                 (Option.some (BitRange.mk msb lsb)) port_name) ts8
                           | PResult.error e => PResult.error e)
                      | PResult.error e => PResult.error e)
                 | PResult.error e => PResult.error e)
            | PResult.error e => PResult.error e)
       | PResult.error e => PResult.error e)
  | Option.none =>
      let port_name := (current_token ts2).content
      match expect_token_or_fail ts2 TokenType.Identifier "" with
      | PResult.ok _ ts3 =>
          PResult.ok (Port.mk direction is_register_type Option.none port_name) ts3
      | PResult.error e => PResult.error e

/-- The parameter-list loop of `parse_module_definition`. -/
def parse_parameter_list : Nat → List Token → PResult (List Parameter)
  | 0, _ => PResult.error ParseError.outOfFuel
  | fuel + 1, ts =>
      if (current_token ts).type = TokenType.Keyword ∧ (current_token ts).content = "parameter" then
        let ts1 := ts.tail
        let parameter_name := (current_token ts1).content
        match expect_token_or_fail ts1 TokenType.Identifier "" with
        | PResult.ok _ ts2 =>
            (match expect_token_or_fail ts2 TokenType.Symbol "=" with
             | PResult.ok _ ts3 =>
                 (match parse_expression fuel ts3 with
                  | PResult.ok value ts4 =>
                      let ts5 := if (current_token ts4).content = "," then ts4.tail else ts4
                      (match parse_parameter_list fuel ts5 with
                       | PResult.ok rest ts6 =>
                           PResult.ok (Parameter.mk parameter_name value :: rest) ts6
                       | PResult.error e => PResult.error e)
                  | PResult.error e => PResult.error e)
             | PResult.error e => PResult.error e)
        | PResult.error e => PResult.error e
      else PResult.ok [] ts

/-- The port-list loop of `parse_module_definition`. -/
def parse_port_list : Nat → List Token → PResult (List Port)
  | 0, _ => PResult.error ParseError.outOfFuel
  | fuel + 1, ts =>
      if (current_token ts).type = TokenType.Symbol ∧ (current_token ts).content = ")" then
        PResult.ok [] ts
      else
        match parse_port_definition fuel ts with
        | PResult.ok port ts1 =>
            let ts2 := if (current_token ts1).content = "," then ts1.tail else ts1
            (match parse_port_list fuel ts2 with
             | PResult.ok rest ts3 => PResult.ok (port :: rest) ts3
             | PResult.error e => PResult.error e)
        | PResult.error e => PResult.error e

/-- The inner fast-forward loop for one internal `reg`/`wire` declaration:
advance until the terminating semicolon (or the end of input) and past it. -/
def skip_declaration : List Token → List Token
  | [] => []
  | t :: ts =>
      if t.type = TokenType.Symbol ∧ t.content = ";" then ts else skip_declaration ts

/-- The outer skipping loop: while the lookahead is `reg` or `wire`, skip one
declaration. -/
def skip_reg_wire_declarations : Nat → List Token → List Token
  | 0, ts => ts
  | fuel + 1, ts =>
      if (current_token ts).type = TokenType.Keyword ∧
          ((current_token ts).content = "reg" ∨ (current_token ts).content = "wire") then
        skip_reg_wire_declarations fuel (skip_declaration ts)
      else ts

/-- The module-item loop of `parse_module_definition`: only `always` blocks
are accepted; anything else (except `endmodule`) is fatal. -/
def parse_module_items : Nat → List Token → PResult (List ModuleItem)
  | 0, _ => PResult.error ParseError.outOfFuel
  | fuel + 1, ts =>
      if (current_token ts).type = TokenType.Keyword ∧ (current_token ts).content = "endmodule" then
        PResult.ok [] ts
      else if (current_token ts).content = "always" then
        match parse_always_block_definition fuel ts with
        | PResult.ok ab ts1 =>
            (match parse_module_items fuel ts1 with
             | PResult.ok rest ts2 => PResult.ok (ModuleItem.alwaysBlock ab :: rest) ts2
             | PResult.error e => PResult.error e)
        | PResult.error e => PResult.error e
      else PResult.error (ParseError.unknownModuleItem (current_token ts).content)

/-- `VerilogParser::parse_module_definition`. -/
def parse_module_definition (fuel : Nat) (ts : List Token) : PResult VModule :=
  match expect_token_or_fail ts TokenType.Keyword "module" with
  | PResult.ok _ ts1 =>
      let parsed_module_name := (current_token ts1).content
      (match expect_token_or_fail ts1 TokenType.Identifier "" with
       | PResult.ok _ ts2 =>
           let parametersResult : PResult (List Parameter) :=
             match match_and_consume_token? ts2 TokenType.Symbol "#" with
             | Option.some ts3 =>
                 (match expect_token_or_fail ts3 TokenType.Symbol "(" with
                  | PResult.ok _ ts4 =>
                      (match parse_parameter_list fuel ts4 with
                       | PResult.ok ps ts5 =>
                           (match expect_token_or_fail ts5 TokenType.Symbol ")" with
                            | PResult.ok _ ts6 => PResult.ok ps ts6
                            | PResult.error e => PResult.error e)
                       | PResult.error e => PResult.error e)
                  | PResult.error e => PResult.error e)
             | Option.none => PResult.ok [] ts2
           (match parametersResult with
            | PResult.ok parsed_parameters ts7 =>
                (match expect_token_or_fail ts7 TokenType.Symbol "(" with
                 | PResult.ok _ ts8 =>
                     (match parse_port_list fuel ts8 with
                      | PResult.ok parsed_ports ts9 =>
                          (match expect_token_or_fail ts9 TokenType.Symbol ")" with
                           | PResult.ok _ ts10 =>
                               (match expect_token_or_fail ts10 TokenType.Symbol ";" with
                                | PResult.ok _ ts11 =>
                                    let ts12 := skip_reg_wire_declarations fuel ts11
                                    (match parse_module_items fuel ts12 with
                                     | PResult.ok items ts13 =>
                                         (match expect_token_or_fail ts13 TokenType.Keyword "endmodule" with
                                          | PResult.ok _ ts14 =>
                                              PResult.ok (VModule.mk parsed_module_name
                                                parsed_parameters parsed_ports items) ts14
                                          | PResult.error e => PResult.error e)
                                     | PResult.error e => PResult.error e)
                                | PResult.error e => PResult.error e)
                           | PResult.error e => PResult.error e)
                      | PResult.error e => PResult.error e)
                 | PResult.error e => PResult.error e)
            | PResult.error e => PResult.error e)
       | PResult.error e => PResult.error e)
  | PResult.error e => PResult.error e

/-- End-to-end parse of a source string, with fuel bounded by the source
length (ample for every terminating run of the C++ parser). -/
def parse_module_from_source (s : String) : PResult VModule :=
  parse_module_definition (s.data.length + 1) (tokenize s)

/-! ## Linter (Linter.cpp)

The C++ linter appends human-readable strings to `linter_violations`.  Each
`report_violation` call site uses a fixed format string; the embedding keeps
one constructor per call site, carrying the data interpolated into the
string, and `render_violation` reproduces the exact C++ message. -/

inductive Violation where
  | constantMathOverflow (left_value right_value : Nat)
  | multiDrivenRegister (name : String)
  | structuralWidthMismatch (rhs_width lhs_width : Nat) (name : String)
  | unreachableBlock
  | inferLatch
  | nonFullParallelCase
  | unreachableFsmState (name : String)
  | uninitializedRegister (name : String)
deriving DecidableEq

/-- The exact violation strings produced by `Linter.cpp`. -/
def render_violation : Violation → String
  | Violation.constantMathOverflow lv rv =>
      "Constant Math Overflow: " ++ toString lv ++ " + " ++ toString rv
  | Violation.multiDrivenRegister name =>
      "Multi-Driven Register: '" ++ name ++ "' is driven by multiple blocks."
  | Violation.structuralWidthMismatch rw lw name =>
      "Structural Width Mismatch (Carry Overflow): Assigning a " ++ toString rw ++
        "-bit mathematical result to a " ++ toString lw ++ "-bit register '" ++ name ++ "'."
  | Violation.unreachableBlock =>
      "Unreachable Block: 'if' condition evaluates to false (0)."
  | Violation.inferLatch =>
      "Infer Latch: 'if' statement without 'else' branch."
  | Violation.nonFullParallelCase =>
      "Non Full/Parallel Case: 'case' missing 'default'."
  | Violation.unreachableFsmState name =>
      "Unreachable Finite State Machine State: Parameter '" ++ name ++ "' never used."
  | Violation.uninitializedRegister name =>
      "Un-initialized Register: '" ++ name ++ "' declared but never driven."

/-- Association-list model of the `std::unordered_map` members: an insert
replaces an existing binding in place or appends a new one. -/
def lookupA {α : Type} : List (String × α) → String → Option α
  | [], _ => Option.none
  | (k, v) :: rest, key => if k = key then Option.some v else lookupA rest key

def updateA {α : Type} : List (String × α) → String → α → List (String × α)
  | [], key, value => [(key, value)]
  | (k, v) :: rest, key, value =>
      if k = key then (key, value) :: rest else (k, v) :: updateA rest key value

structure ExpressionResult where
  statically_evaluated_value : Option Nat
  bit_width_size : Nat
deriving DecidableEq

/-- The mutable members of `VerilogStaticLinter` together with its
`LinterContext`.  The C++ `current_always_block` pointer is modelled by the
index of the module item being analysed (distinct arena allocations compare
unequal exactly like distinct indices). -/
structure LinterState where
  linter_violations : List Violation
  evaluated_parameter_values : List (String × Nat)
  evaluated_signal_widths : List (String × Nat)
  register_driven_by_block : List (String × Option Nat)
  is_register_written_to : List (String × Bool)
  finite_state_machine_states : List String
  used_case_statement_items : List String
  current_always_block : Option Nat
  in_combinational_always_block : Bool
deriving DecidableEq

def initial_linter_state : LinterState :=
  ⟨[], [], [], [], [], [], [], Option.none, false⟩

def report_violation (st : LinterState) (v : Violation) : LinterState :=
  { st with linter_violations := st.linter_violations ++ [v] }

/-- `uint64_t` subtraction. -/
def sub64 (a b : Nat) : Nat := (a + 2 ^ 64 - b) % 2 ^ 64

/-- `uint64_t` left shift by an arbitrary count, modelled as multiplication
by the power of two reduced modulo `2 ^ 64` (so counts of 64 or more give
zero). -/
def shl64 (x n : Nat) : Nat := x * 2 ^ n % 2 ^ 64

/-- `VerilogStaticLinter::evaluate_expression_properties`.  The only state it
mutates is the violation list (a constant-overflow report). -/
def evaluate_expression_properties (st : LinterState) :
    Expression → ExpressionResult × LinterState
  | Expression.Identifier identifier_name =>
      (match lookupA st.evaluated_parameter_values identifier_name with
       | Option.some v => (ExpressionResult.mk (Option.some v) 32, st)
       | Option.none =>
           match lookupA st.evaluated_signal_widths identifier_name with
           | Option.some w => (ExpressionResult.mk Option.none w, st)
           | Option.none => (ExpressionResult.mk Option.none 32, st))
  | Expression.Number numeric_value_string =>
      (match parse_verilog_number numeric_value_string with
       | Option.some cv =>
           (ExpressionResult.mk (Option.some cv.numeric_value) cv.bit_width_size, st)
       | Option.none => (ExpressionResult.mk Option.none 32, st))
  | Expression.BinaryExpression op l r =>
      let (left_result, st1) := evaluate_expression_properties st l
      let (right_result, st2) := evaluate_expression_properties st1 r
      let operand_width := max left_result.bit_width_size right_result.bit_width_size
      let result_width :=
        if op = "+" ∨ op = "-" then (operand_width + 1) % 2 ^ 32
        else if op = "*" then (left_result.bit_width_size + right_result.bit_width_size) % 2 ^ 32
        else if op = "==" then 1
        else operand_width
      match left_result.statically_evaluated_value,
            right_result.statically_evaluated_value with
      | Option.some lv, Option.some rv =>
          let max_value := if 64 ≤ operand_width then 2 ^ 64 - 1 else 2 ^ operand_width - 1
          if op = "+" then
            let st3 :=
              if sub64 max_value rv < lv then
                report_violation st2 (Violation.constantMathOverflow lv rv)
              else st2
            (ExpressionResult.mk
              (Option.some ((lv + rv) % 2 ^ 64 &&& sub64 (shl64 1 result_width) 1))
              result_width, st3)
          else if op = "-" then
            (ExpressionResult.mk
              (Option.some (sub64 lv rv &&& sub64 (shl64 1 result_width) 1))
              result_width, st2)
          else (ExpressionResult.mk Option.none result_width, st2)
      | _, _ => (ExpressionResult.mk Option.none result_width, st2)

/-- First step of the non-blocking-assignment lambda: mark the register as
driven (`is_register_written_to[assigned_name] = true`). -/
def mark_register_written (st : LinterState) (assigned_name : String) : LinterState :=
  { st with is_register_written_to := updateA st.is_register_written_to assigned_name true }

/-- Second step: report a multi-driven register when a different always
block already drives this name. -/
def check_multiple_drivers (st : LinterState) (assigned_name : String) : LinterState :=
  match lookupA st.register_driven_by_block assigned_name with
  | Option.some previous_block =>
      if ¬ previous_block = st.current_always_block then
        report_violation st (Violation.multiDrivenRegister assigned_name)
      else st
  | Option.none => st

/-- Third step: record the current always block as the driver. -/
def record_driving_block (st : LinterState) (assigned_name : String) : LinterState :=
  { st with register_driven_by_block :=
      updateA st.register_driven_by_block assigned_name st.current_always_block }

/-- Fourth step: report a structural width mismatch when the right-hand
side is wider than the declared width of the assigned signal. -/
def check_assignment_width (st : LinterState) (assigned_name : String)
    (rhs_width : Nat) : LinterState :=
  match lookupA st.evaluated_signal_widths assigned_name with
  | Option.some lhs_width =>
      if lhs_width < rhs_width then
        report_violation st
          (Violation.structuralWidthMismatch rhs_width lhs_width assigned_name)
      else st
  | Option.none => st

/-- The non-blocking-assignment lambda of
`analyze_statement_for_violations`: evaluate the right-hand side and, when
the left-hand side is a plain identifier, perform the four bookkeeping
steps in the order of the C++ code. -/
def analyze_nonblocking_assignment (st : LinterState) (lhs rhs : Expression) : LinterState :=
  match evaluate_expression_properties st rhs, lhs with
  | (rhs_result, st1), Expression.Identifier assigned_name =>
      check_assignment_width
        (record_driving_block
          (check_multiple_drivers (mark_register_written st1 assigned_name) assigned_name)
          assigned_name)
        assigned_name rhs_result.bit_width_size
  | (_, st1), _ => st1

/-- Whether an optional false branch is present. -/
def has_branch : OptStatement → Bool
  | OptStatement.none => false
  | OptStatement.some _ => true

/-- The two checks that the if-statement lambda performs before recursing:
a statically-false condition and a combinational `if` without `else`. -/
def check_if_statement_condition (st : LinterState) (condition_expression : Expression)
    (has_false_branch : Bool) : LinterState :=
  match evaluate_expression_properties st condition_expression with
  | (condition_result, st1) =>
      let st2 :=
        match condition_result.statically_evaluated_value with
        | Option.some v => if v = 0 then report_violation st1 Violation.unreachableBlock else st1
        | Option.none => st1
      if st2.in_combinational_always_block ∧ has_false_branch = false then
        report_violation st2 Violation.inferLatch
      else st2

/-- Record a case-arm selector that is a plain identifier in
`used_case_statement_items` (an `unordered_set` insert). -/
def record_case_selector (st : LinterState) : Expression → LinterState
  | Expression.Identifier name =>
      if st.used_case_statement_items.contains name then st
      else { st with used_case_statement_items := st.used_case_statement_items ++ [name] }
  | _ => st

mutual
/-- `VerilogStaticLinter::analyze_statement_for_violations`, with each
`std::visit` lambda's non-recursive prefix factored into the helper
definitions above. -/
def analyze_statement_for_violations (st : LinterState) : Statement → LinterState
  | Statement.NonBlockingAssignment lhs rhs =>
      analyze_nonblocking_assignment st lhs rhs
  | Statement.IfStatement condition_expression true_branch false_branch =>
      analyze_opt_statement
        (analyze_statement_for_violations
          (check_if_statement_condition st condition_expression (has_branch false_branch))
          true_branch)
        false_branch
  | Statement.BlockStatement contained_statements =>
      analyze_statement_seq st contained_statements
  | Statement.CaseStatement condition_expression case_branches default_branch =>
      analyze_case_branches
        (analyze_case_default
          (evaluate_expression_properties st condition_expression).2 default_branch)
        case_branches

/-- The default-branch handling of the case-statement lambda: a missing
default is the Non Full/Parallel Case violation, a present one is recursed
into. -/
def analyze_case_default (st : LinterState) : OptStatement → LinterState
  | OptStatement.none => report_violation st Violation.nonFullParallelCase
  | OptStatement.some d => analyze_statement_for_violations st d

def analyze_opt_statement (st : LinterState) : OptStatement → LinterState
  | OptStatement.none => st
  | OptStatement.some s => analyze_statement_for_violations st s

def analyze_statement_seq (st : LinterState) : StatementList → LinterState
  | StatementList.nil => st
  | StatementList.cons s rest =>
      analyze_statement_seq (analyze_statement_for_violations st s) rest

def analyze_case_branches (st : LinterState) : CaseBranchList → LinterState
  | CaseBranchList.nil => st
  | CaseBranchList.cons selector body rest =>
      analyze_case_branches
        (analyze_statement_for_violations (record_case_selector st selector) body) rest
end

/-- Record a parameter name as a potential FSM state. -/
def add_fsm_state_candidate (st : LinterState) (name : String) : LinterState :=
  { st with finite_state_machine_states := st.finite_state_machine_states ++ [name] }

/-- Record a parameter's folded default value, when it folded. -/
def record_parameter_value (st : LinterState) (name : String) : Option Nat → LinterState
  | Option.some v =>
      { st with evaluated_parameter_values := updateA st.evaluated_parameter_values name v }
  | Option.none => st

/-- Pass 1 of `analyze_module`: record every parameter as an FSM-state
candidate and fold its default value. -/
def analyze_parameters (st : LinterState) : List Parameter → LinterState
  | [] => st
  | p :: rest =>
      match evaluate_expression_properties (add_fsm_state_candidate st p.parameter_name)
          p.default_value_expression with
      | (r, st2) =>
          analyze_parameters
            (record_parameter_value st2 p.parameter_name r.statically_evaluated_value) rest

/-- The width computation of pass 2: scalar default 1, otherwise evaluate
both bounds and, if both fold, width is `(msb - lsb) + 1` (a `uint64_t`
subtraction narrowed into a `uint32_t`). -/
def evaluate_port_width (st : LinterState) : Option BitRange → Nat × LinterState
  | Option.some br =>
      match evaluate_expression_properties st br.most_significant_bit with
      | (msb_result, stA) =>
          match evaluate_expression_properties stA br.least_significant_bit with
          | (lsb_result, stB) =>
              match msb_result.statically_evaluated_value,
                    lsb_result.statically_evaluated_value with
              | Option.some mv, Option.some lv => ((sub64 mv lv + 1) % 2 ^ 32, stB)
              | _, _ => (1, stB)
  | Option.none => (1, st)

/-- Record a port's evaluated width in the signal-width table. -/
def record_port_width (st : LinterState) (name : String) (w : Nat) : LinterState :=
  { st with evaluated_signal_widths := updateA st.evaluated_signal_widths name w }

/-- Add an undriven entry for an output `reg` port. -/
def record_output_register (st : LinterState) (port : Port) : LinterState :=
  if port.is_register_type ∧ port.direction = PortDirection.Output then
    { st with
      is_register_written_to := updateA st.is_register_written_to port.port_name false }
  else st

/-- Pass 2 of `analyze_module`: record every port's width and add an
undriven entry for each output `reg` port. -/
def analyze_ports (st : LinterState) : List Port → LinterState
  | [] => st
  | port :: rest =>
      match evaluate_port_width st port.bit_range with
      | (evaluated_width, st1) =>
          analyze_ports
            (record_output_register (record_port_width st1 port.port_name evaluated_width) port)
            rest

/-- Enter an always block: set the current-block pointer and the
combinational flag. -/
def set_block_context (st : LinterState) (idx : Nat) (comb : Bool) : LinterState :=
  { st with current_always_block := Option.some idx, in_combinational_always_block := comb }

/-- Leave an always block: clear the current-block pointer. -/
def clear_block_context (st : LinterState) : LinterState :=
  { st with current_always_block := Option.none }

/-- Pass 3 of `analyze_module`: walk every always block with the context set,
clearing the current-block pointer afterwards. -/
def analyze_items (st : LinterState) (idx : Nat) : List ModuleItem → LinterState
  | [] => st
  | ModuleItem.alwaysBlock ab :: rest =>
      analyze_items
        (clear_block_context
          (analyze_statement_for_violations
            (set_block_context st idx (is_combinational_block ab)) ab.body_statement))
        (idx + 1) rest

/-- Case/substring-sensitive containment test used by the FSM heuristic
(`std::string_view::find` on the pattern `STATE`). -/
def has_substring (s pat : String) : Bool :=
  (List.range (s.data.length + 1)).any (fun i => (s.data.drop i).take pat.data.length = pat.data)

/-- `check_for_unreachable_finite_state_machine_states`. -/
def check_fsm_go (st : LinterState) : List String → LinterState
  | [] => st
  | name :: rest =>
      let st1 :=
        if has_substring name "STATE" then
          if st.used_case_statement_items.contains name then st
          else report_violation st (Violation.unreachableFsmState name)
        else st
      check_fsm_go st1 rest

def check_for_unreachable_finite_state_machine_states (st : LinterState) : LinterState :=
  check_fsm_go st st.finite_state_machine_states

/-- `check_for_uninitialized_registers`. -/
def check_uninit_go (st : LinterState) : List (String × Bool) → LinterState
  | [] => st
  | (register_name, has_been_written) :: rest =>
      check_uninit_go
        (if has_been_written then st
         else report_violation st (Violation.uninitializedRegister register_name)) rest

def check_for_uninitialized_registers (st : LinterState) : LinterState :=
  check_uninit_go st st.is_register_written_to

/-- `VerilogStaticLinter::analyze_module`: the four analysis passes. -/
def analyze_module (m : VModule) : LinterState :=
  let st1 := analyze_parameters initial_linter_state m.module_parameters
  let st2 := analyze_ports st1 m.module_ports
  let st3 := analyze_items st2 0 m.module_items
  let st4 := check_for_unreachable_finite_state_machine_states st3
  check_for_uninitialized_registers st4

/-! ## Auxiliary predicates used in the theorem statements -/

mutual
/-- Whether `name` occurs as the plain-identifier left-hand side of some
(non-blocking) assignment inside the statement. -/
def assigns_name (name : String) : Statement → Bool
  | Statement.NonBlockingAssignment (Expression.Identifier m) _ => m = name
  | Statement.NonBlockingAssignment _ _ => false
  | Statement.IfStatement _ t e => assigns_name name t ∨ assigns_name_opt name e
  | Statement.BlockStatement ss => assigns_name_seq name ss
  | Statement.CaseStatement _ br d => assigns_name_brs name br ∨ assigns_name_opt name d

def assigns_name_opt (name : String) : OptStatement → Bool
  | OptStatement.none => false
  | OptStatement.some s => assigns_name name s

def assigns_name_seq (name : String) : StatementList → Bool
  | StatementList.nil => false
  | StatementList.cons s rest => assigns_name name s ∨ assigns_name_seq name rest

def assigns_name_brs (name : String) : CaseBranchList → Bool
  | CaseBranchList.nil => false
  | CaseBranchList.cons _ body rest => assigns_name name body ∨ assigns_name_brs name rest
end

/-- Whether `name` is assigned (as above) inside a module item. -/
def module_item_assigns (name : String) : ModuleItem → Bool
  | ModuleItem.alwaysBlock ab => assigns_name name ab.body_statement

/-- Whether `name` is assigned (as above) inside some always block of the
module. -/
def module_assigns (m : VModule) (name : String) : Bool :=
  m.module_items.any (module_item_assigns name)

/-- The message the specification prescribes for a non-blocking assignment
inside a combinational block; stated from the spec's words for comparison
with the violations the code actually produces. -/
def spec_design_practice_nonblocking_message : String :=
  "Design Practice: Using non-blocking assignment '<=' inside a combinational block."

/-! ## Concrete example inputs used by counterexamples and witnesses -/

/-- A combinational always block whose body is a single non-blocking
assignment `y <= a`. -/
def example_combinational_block : AlwaysBlock :=
  AlwaysBlock.mk [Sensitivity.mk EdgeType.None "a"]
    (Statement.NonBlockingAssignment (Expression.Identifier "y") (Expression.Identifier "a"))

/-- `module m(input a, output reg y); always @(a) y <= a; endmodule`. -/
def example_combinational_module : VModule :=
  VModule.mk "m" []
    [Port.mk PortDirection.Input false Option.none "a",
     Port.mk PortDirection.Output true Option.none "y"]
    [ModuleItem.alwaysBlock example_combinational_block]

/-- An edge-triggered always block whose body is a case statement without a
default branch. -/
def example_sequential_case_block : AlwaysBlock :=
  AlwaysBlock.mk [Sensitivity.mk EdgeType.PositiveEdge "clk"]
    (Statement.CaseStatement (Expression.Identifier "y")
      (CaseBranchList.cons (Expression.Number "1'b0")
        (Statement.NonBlockingAssignment (Expression.Identifier "y") (Expression.Number "1'b1"))
        CaseBranchList.nil)
      OptStatement.none)

/-- `module m(input clk, output reg y); always @(posedge clk)
case (y) 1'b0 : y <= 1'b1; endcase endmodule`. -/
def example_sequential_case_module : VModule :=
  VModule.mk "m" []
    [Port.mk PortDirection.Input false Option.none "clk",
     Port.mk PortDirection.Output true Option.none "y"]
    [ModuleItem.alwaysBlock example_sequential_case_block]

/-- `module m(input clk, output reg y); always @(posedge clk) y <= 1'b1;
endmodule`: its single output `reg` port is assigned in an always block. -/
def example_driven_register_module : VModule :=
  VModule.mk "m" []
    [Port.mk PortDirection.Input false Option.none "clk",
     Port.mk PortDirection.Output true Option.none "y"]
    [ModuleItem.alwaysBlock (AlwaysBlock.mk [Sensitivity.mk EdgeType.PositiveEdge "clk"]
      (Statement.NonBlockingAssignment (Expression.Identifier "y") (Expression.Number "1'b1")))]

/-- Violations produced by the constant-folding overflow check. -/
def overflow_shaped : Violation → Bool
  | Violation.constantMathOverflow _ _ => true
  | _ => false

/-- Violations produced by the uninitialized-register check. -/
def uninit_shaped : Violation → Bool
  | Violation.uninitializedRegister _ => true
  | _ => false

/-- Violations produced by the unreachable-FSM-state check. -/
def fsm_shaped : Violation → Bool
  | Violation.unreachableFsmState _ => true
  | _ => false

/-- Key-distinctness of an association list (the invariant of the
`std::unordered_map` model). -/
def dupfree {α : Type} (l : List (String × α)) : Prop :=
  l.Pairwise (fun a b => ¬ a.1 = b.1)

/-- What one statement-analysis step can do to the linter state: the
parameter and signal tables, the context and the FSM candidate list are
untouched; violations are only appended, and never with an
uninitialized-register report; entries of the written-register table are
either old or `true`; a `true` entry never reverts; key-distinctness is
kept. -/
def linter_preserves (st st' : LinterState) : Prop :=
  st'.evaluated_parameter_values = st.evaluated_parameter_values ∧
  st'.evaluated_signal_widths = st.evaluated_signal_widths ∧
  st'.current_always_block = st.current_always_block ∧
  st'.in_combinational_always_block = st.in_combinational_always_block ∧
  st'.finite_state_machine_states = st.finite_state_machine_states ∧
  (∃ δ, st'.linter_violations = st.linter_violations ++ δ ∧
      ∀ v ∈ δ, uninit_shaped v = false) ∧
  (∀ p ∈ st'.is_register_written_to, p ∈ st.is_register_written_to ∨ p.2 = true) ∧
  (∀ n, lookupA st.is_register_written_to n = Option.some true →
      lookupA st'.is_register_written_to n = Option.some true) ∧
  (dupfree st.is_register_written_to → dupfree st'.is_register_written_to)

/-! # Theorems -/

/-! ## Lexer lemmas -/

theorem skip_junk_step (fuel : Nat) (c : Char) (cs : List Char)
    (hw : is_whitespace_character c = false) (hc : ¬ c = '/') :
    skip_junk_fuel (fuel + 1) (c :: cs) = c :: cs := by
  simp [skip_junk_fuel, List.dropWhile_cons, hw, hc]

theorem get_next_token_nonjunk (c : Char) (cs : List Char)
    (hw : is_whitespace_character c = false) (hc : ¬ c = '/') :
    get_next_token (c :: cs) = extract_token (c :: cs) := by
  have hlen : (c :: cs).length = cs.length + 1 := rfl
  rw [get_next_token, hlen, skip_junk_step cs.length c cs hw hc]

/-! ## C5: which two-character operators the lexer recognises -/

/-- C5 counterexample: at an input starting with the two characters `>=` the
lexer does not return them as a single `Symbol` token; it consumes only the
`>` and leaves the `=` in the stream. -/
theorem claim_C5_counterexample :
    get_next_token ['>', '='] = (⟨TokenType.Symbol, ">"⟩, ['=']) ∧
    ¬ get_next_token ['>', '='] = (⟨TokenType.Symbol, ">="⟩, []) := by
  constructor
  · rfl
  · decide

/-- C5 amended: of the eight two-character operator spellings only `<=` and
`==` are consumed as a single two-character `Symbol` token; each of `>=`,
`!=`, `<<`, `>>`, `&&`, `||` yields a one-character `Symbol` with the second
character left in the input. -/
theorem claim_C5_amended (rest : List Char) :
    get_next_token ('<' :: '=' :: rest) = (⟨TokenType.Symbol, "<="⟩, rest) ∧
    get_next_token ('=' :: '=' :: rest) = (⟨TokenType.Symbol, "=="⟩, rest) ∧
    get_next_token ('>' :: '=' :: rest) = (⟨TokenType.Symbol, ">"⟩, '=' :: rest) ∧
    get_next_token ('!' :: '=' :: rest) = (⟨TokenType.Symbol, "!"⟩, '=' :: rest) ∧
    get_next_token ('<' :: '<' :: rest) = (⟨TokenType.Symbol, "<"⟩, '<' :: rest) ∧
    get_next_token ('>' :: '>' :: rest) = (⟨TokenType.Symbol, ">"⟩, '>' :: rest) ∧
    get_next_token ('&' :: '&' :: rest) = (⟨TokenType.Symbol, "&"⟩, '&' :: rest) ∧
    get_next_token ('|' :: '|' :: rest) = (⟨TokenType.Symbol, "|"⟩, '|' :: rest) := by
  refine ⟨?_, ?_, ?_, ?_, ?_, ?_, ?_, ?_⟩ <;>
    rw [get_next_token_nonjunk _ _ (by decide) (by decide)] <;>
    simp [extract_token, is_digit_character, is_alphabet_character]

/-! ## Parser lemmas -/

theorem current_token_cons (t : Token) (ts : List Token) : current_token (t :: ts) = t := rfl

/-! ## C1: statements that begin with an identifier -/

/-- C1 counterexample: the statement `x = y ;` is a fatal syntax error — the
parser demands `<=` after the leading identifier, so the blocking form is not
accepted (and no assignment node with a blocking flag exists). -/
theorem claim_C1_counterexample :
    parse_statement_definition 10
        [⟨TokenType.Identifier, "x"⟩, ⟨TokenType.Symbol, "="⟩,
         ⟨TokenType.Identifier, "y"⟩, ⟨TokenType.Symbol, ";"⟩] =
      PResult.error (ParseError.syntaxError "<=" "=") := by
  decide

/-- C1 amended: for a statement beginning with an identifier the parser
accepts only the non-blocking form `identifier '<=' expression ';'`,
producing a `NonBlockingAssignment` node; any other token after the
identifier (in particular `=`) is a fatal syntax error. -/
theorem claim_C1_amended :
    (∀ (fuel : Nat) (name : String) (ts ts' : List Token) (rhs : Expression),
      parse_expression fuel ts = PResult.ok rhs (⟨TokenType.Symbol, ";"⟩ :: ts') →
      parse_statement_definition (fuel + 1)
          (⟨TokenType.Identifier, name⟩ :: ⟨TokenType.Symbol, "<="⟩ :: ts) =
        PResult.ok (Statement.NonBlockingAssignment (Expression.Identifier name) rhs) ts') ∧
    (∀ (fuel : Nat) (name : String) (t : Token) (ts : List Token),
      ¬ (t.type = TokenType.Symbol ∧ t.content = "<=") →
      parse_statement_definition (fuel + 1) (⟨TokenType.Identifier, name⟩ :: t :: ts) =
        PResult.error (ParseError.syntaxError "<=" t.content)) := by
  constructor
  · intro fuel name ts ts' rhs h
    simp [parse_statement_definition, match_and_consume_token?, current_token_cons,
      expect_token_or_fail, h]
  · intro fuel name t ts ht
    simp [parse_statement_definition, match_and_consume_token?, current_token_cons,
      expect_token_or_fail, ht]

/-- C1 witness: both parts of the amended claim at concrete inputs:
`q <= a ;` parses to a non-blocking assignment, and `q = …` is the fatal
error naming the expected `<=`. -/
theorem claim_C1_witness :
    parse_statement_definition 2
        [⟨TokenType.Identifier, "q"⟩, ⟨TokenType.Symbol, "<="⟩,
         ⟨TokenType.Identifier, "a"⟩, ⟨TokenType.Symbol, ";"⟩] =
      PResult.ok (Statement.NonBlockingAssignment (Expression.Identifier "q")
        (Expression.Identifier "a")) [] ∧
    parse_statement_definition 2 [⟨TokenType.Identifier, "q"⟩, ⟨TokenType.Symbol, "="⟩] =
      PResult.error (ParseError.syntaxError "<=" "=") :=
  ⟨claim_C1_amended.1 1 "q" [⟨TokenType.Identifier, "a"⟩, ⟨TokenType.Symbol, ";"⟩] []
      (Expression.Identifier "a") (by decide),
   claim_C1_amended.2 1 "q" ⟨TokenType.Symbol, "="⟩ [] (by decide)⟩

/-! ## C4: associativity and precedence of the expression parser -/

/-- C4 counterexample: `a - b - c` parses to the right-associated tree
`a - (b - c)`, not to the left-associated tree the claim demands. -/
theorem claim_C4_counterexample :
    parse_expression 10
        [⟨TokenType.Identifier, "a"⟩, ⟨TokenType.Symbol, "-"⟩, ⟨TokenType.Identifier, "b"⟩,
         ⟨TokenType.Symbol, "-"⟩, ⟨TokenType.Identifier, "c"⟩] =
      PResult.ok (Expression.BinaryExpression "-" (Expression.Identifier "a")
        (Expression.BinaryExpression "-" (Expression.Identifier "b")
          (Expression.Identifier "c"))) [] ∧
    ¬ parse_expression 10
        [⟨TokenType.Identifier, "a"⟩, ⟨TokenType.Symbol, "-"⟩, ⟨TokenType.Identifier, "b"⟩,
         ⟨TokenType.Symbol, "-"⟩, ⟨TokenType.Identifier, "c"⟩] =
      PResult.ok (Expression.BinaryExpression "-"
        (Expression.BinaryExpression "-" (Expression.Identifier "a")
          (Expression.Identifier "b")) (Expression.Identifier "c")) [] := by
  decide

/-- C4 amended: the expression parser is flat and right-recursive over the
single operator set `+`, `-`, `==` (no precedence levels): for any operands
`a op1 b op2 c` with both operators drawn from that set, the result is the
right-associated tree `a op1 (b op2 c)`. -/
theorem claim_C4_amended (fuel : Nat) (n1 n2 n3 op1 op2 : String) (rest : List Token)
    (hop1 : op1 = "+" ∨ op1 = "-" ∨ op1 = "==")
    (hop2 : op2 = "+" ∨ op2 = "-" ∨ op2 = "==")
    (hrest : ¬ ((current_token rest).type = TokenType.Symbol ∧
      ((current_token rest).content = "+" ∨ (current_token rest).content = "-" ∨
        (current_token rest).content = "=="))) :
    parse_expression (fuel + 3)
        (⟨TokenType.Identifier, n1⟩ :: ⟨TokenType.Symbol, op1⟩ :: ⟨TokenType.Identifier, n2⟩ ::
          ⟨TokenType.Symbol, op2⟩ :: ⟨TokenType.Identifier, n3⟩ :: rest) =
      PResult.ok (Expression.BinaryExpression op1 (Expression.Identifier n1)
        (Expression.BinaryExpression op2 (Expression.Identifier n2)
          (Expression.Identifier n3))) rest := by
  rcases hop1 with h1 | h1 | h1 <;> rcases hop2 with h2 | h2 | h2 <;> subst h1 <;> subst h2 <;>
    simp [parse_expression, current_token_cons, hrest]

/-- C4 witness: the amended claim at `a - b - c` with an empty remainder. -/
theorem claim_C4_witness :
    parse_expression 3
        [⟨TokenType.Identifier, "a"⟩, ⟨TokenType.Symbol, "-"⟩, ⟨TokenType.Identifier, "b"⟩,
         ⟨TokenType.Symbol, "-"⟩, ⟨TokenType.Identifier, "c"⟩] =
      PResult.ok (Expression.BinaryExpression "-" (Expression.Identifier "a")
        (Expression.BinaryExpression "-" (Expression.Identifier "b")
          (Expression.Identifier "c"))) [] :=
  claim_C4_amended 0 "a" "b" "c" "-" "-" [] (Or.inr (Or.inl rfl)) (Or.inr (Or.inl rfl))
    (by decide)

/-! ## C9: non-emptiness of identifier names in parsed ASTs -/

/-- C9 counterexample: the source
`module m ( ) ; always @ ( x ) q <= ; endmodule` parses successfully, and
the right-hand side of the assignment in the returned AST is an identifier
leaf whose name is the empty string (the default-constructed expression that
`parse_expression` returns when the lookahead is neither an identifier nor a
number). -/
theorem claim_C9_counterexample :
    parse_module_from_source "module m ( ) ; always @ ( x ) q <= ; endmodule" =
      PResult.ok (VModule.mk "m" [] []
        [ModuleItem.alwaysBlock (AlwaysBlock.mk [Sensitivity.mk EdgeType.None "x"]
          (Statement.NonBlockingAssignment (Expression.Identifier "q")
            (Expression.Identifier "")))]) [] := by
  decide

/-- C9 amended: when the lookahead is neither an `Identifier` nor a
`NumberLiteral` token and is not one of the binary-operator symbols,
`parse_expression` consumes nothing and returns the default-constructed
expression: an identifier leaf with the empty name.  Hence a successful
parse can contain an empty identifier name (see the counterexample);
identifiers copied from `Identifier` tokens keep the token text. -/
theorem claim_C9_amended (fuel : Nat) (t : Token) (ts : List Token)
    (h1 : ¬ t.type = TokenType.Identifier) (h2 : ¬ t.type = TokenType.NumberLiteral)
    (h3 : ¬ (t.type = TokenType.Symbol ∧
      (t.content = "+" ∨ t.content = "-" ∨ t.content = "=="))) :
    parse_expression (fuel + 1) (t :: ts) = PResult.ok (Expression.Identifier "") (t :: ts) := by
  simp [parse_expression, current_token, h1, h2, h3]

/-- C9 witness: the amended claim at the concrete lookahead `;`. -/
theorem claim_C9_witness :
    parse_expression 1 [⟨TokenType.Symbol, ";"⟩] =
      PResult.ok (Expression.Identifier "") [⟨TokenType.Symbol, ";"⟩] :=
  claim_C9_amended 0 ⟨TokenType.Symbol, ";"⟩ [] (by decide) (by decide) (by decide)

/-! ## C10: the numeric-literal parser does not truncate to the width -/

theorem findIdx_tick_append (ws rest : List Char) (h : ∀ c ∈ ws, ¬ c = '\'') (i : Nat) :
    List.findIdx? (fun c => c = '\'') (ws ++ '\'' :: rest) i = Option.some (i + ws.length) := by
  induction ws generalizing i with
  | nil => simp [List.findIdx?_cons]
  | cons c cs ih =>
      have hc : ¬ c = '\'' := h c (List.mem_cons_self c cs)
      have := ih (fun x hx => h x (List.mem_cons_of_mem c hx)) (i + 1)
      simp only [List.cons_append, List.findIdx?_cons, hc, decide_eq_true_eq, if_neg, this,
        List.length_cons]
      simp
      omega

theorem digit_not_tick (c : Char) (h : (digit_value? 10 c).isSome = true) : ¬ c = '\'' := by
  intro he
  subst he
  simp [digit_value?] at h

/-- C10: `parse_verilog_number` parses a sized hexadecimal literal
`<width>'h<digits>` into the pair (value of the digits, decimal value of the
width prefix) without ever masking the value to the width, so the returned
value may exceed `2 ^ width − 1`; in particular `4'hFF` yields `(255, 4)`
with `255 > 2 ^ 4 − 1`. -/
theorem claim_C10 :
    (∀ (ws ds : List Char) (w v : Nat),
      ¬ ws = [] →
      (∀ c ∈ ws, (digit_value? 10 c).isSome = true) →
      from_chars_value? 10 ws (2 ^ 32) = Option.some w →
      (∀ c ∈ ds, ¬ c = '_') →
      from_chars_value? 16 ds (2 ^ 64) = Option.some v →
      parse_verilog_number (String.mk (ws ++ '\'' :: 'h' :: ds)) =
        Option.some (ConstantValue.mk v w)) ∧
    (parse_verilog_number "4'hFF" = Option.some (ConstantValue.mk 255 4) ∧
      2 ^ 4 - 1 < 255) := by
  constructor
  · intro ws ds w v hne hdig hw hus hv
    have htick : ∀ c ∈ ws, ¬ c = '\'' := fun c hc => digit_not_tick c (hdig c hc)
    have hfind : List.findIdx? (fun c => c = '\'') (ws ++ '\'' :: 'h' :: ds) 0 =
        Option.some ws.length := by
      simpa using findIdx_tick_append ws ('h' :: ds) htick 0
    have hpos : 0 < ws.length := List.length_pos.mpr hne
    have htake : (ws ++ '\'' :: 'h' :: ds).take ws.length = ws := List.take_left ws _
    have hdrop : (ws ++ '\'' :: 'h' :: ds).drop (ws.length + 1) = 'h' :: ds := by
      rw [← List.drop_drop 1 ws.length, List.drop_left]
      rfl
    have hnonempty : ¬ (ws ++ '\'' :: 'h' :: ds).isEmpty = true := by
      rcases ws with _ | ⟨c, cs⟩
      · exact absurd rfl hne
      · simp
    have hfilter : ds.filter (fun c => ¬ c = '_') = ds := by
      rw [List.filter_eq_self]
      intro a ha
      simpa using hus a ha
    have hv' : from_chars_value? 16 ds 18446744073709551616 = Option.some v := hv
    simp only [parse_verilog_number, String.data, hnonempty, if_false, hfind, htake, hdrop,
      hpos, if_pos, hw, Bool.false_eq_true, parse_number_value_part, hfilter]
    simp [hv']
  · constructor
    · decide
    · decide

/-- C10 witness: the general part at the literal `4'hFF`. -/
theorem claim_C10_witness :
    parse_verilog_number (String.mk ['4', '\'', 'h', 'F', 'F']) =
      Option.some (ConstantValue.mk 255 4) :=
  claim_C10.1 ['4'] ['F', 'F'] 4 255 (by decide) (by decide) (by decide) (by decide) (by decide)

/-! ## C7: constant folding of `+` -/

/-- C7 counterexample: with both operand widths equal to `2 ^ 32 − 1` (the
literal `4294967295'h0` parses to value 0 at that width) the `uint32_t`
result width `w + 1` wraps to 0, so the expression's reported bit width is 0
and not `w + 1 = 2 ^ 32`. -/
theorem claim_C7_counterexample :
    (evaluate_expression_properties initial_linter_state
        (Expression.BinaryExpression "+" (Expression.Number "4294967295'h0")
          (Expression.Number "4294967295'h0"))).1 =
      ExpressionResult.mk (Option.some 0) 0 ∧
    (evaluate_expression_properties initial_linter_state
        (Expression.Number "4294967295'h0")).1.bit_width_size = 4294967295 ∧
    ¬ (0 : Nat) = 4294967295 + 1 := by
  refine ⟨by decide, by decide, by decide⟩

/-- C7 amended: for a binary `+` whose operands evaluate to constants
`lv`, `rv` with widths `wl`, `wr` and `w = max wl wr`, the overflow
violation `lv + rv` is appended exactly when `lv > max_w − rv` in `uint64_t`
arithmetic, with `max_w = 2 ^ 64 − 1` if `w ≥ 64` and `2 ^ w − 1` otherwise;
the folded value is the `uint64_t` sum masked with `(1 << result_width) − 1`
and the reported bit width is `result_width = (w + 1) mod 2 ^ 32` (the
`uint32_t` increment of the operand width). -/
theorem eval_plus_closed_form (e1 e2 : Expression) (st st1 st2 : LinterState)
    (lv wl rv wr : Nat)
    (h1 : evaluate_expression_properties st e1 = (ExpressionResult.mk (Option.some lv) wl, st1))
    (h2 : evaluate_expression_properties st1 e2 = (ExpressionResult.mk (Option.some rv) wr, st2)) :
    evaluate_expression_properties st (Expression.BinaryExpression "+" e1 e2) =
      (ExpressionResult.mk
        (Option.some ((lv + rv) % 2 ^ 64 &&& sub64 (shl64 1 ((max wl wr + 1) % 2 ^ 32)) 1))
        ((max wl wr + 1) % 2 ^ 32),
       if sub64 (if 64 ≤ max wl wr then 2 ^ 64 - 1 else 2 ^ max wl wr - 1) rv < lv then
         report_violation st2 (Violation.constantMathOverflow lv rv)
       else st2) := by
  simp [evaluate_expression_properties, h1, h2]

theorem claim_C7_amended (e1 e2 : Expression) (st st1 st2 : LinterState)
    (lv wl rv wr : Nat)
    (h1 : evaluate_expression_properties st e1 = (ExpressionResult.mk (Option.some lv) wl, st1))
    (h2 : evaluate_expression_properties st1 e2 = (ExpressionResult.mk (Option.some rv) wr, st2)) :
    evaluate_expression_properties st (Expression.BinaryExpression "+" e1 e2) =
      (ExpressionResult.mk
        (Option.some ((lv + rv) % 2 ^ 64 &&& sub64 (shl64 1 ((max wl wr + 1) % 2 ^ 32)) 1))
        ((max wl wr + 1) % 2 ^ 32),
       if sub64 (if 64 ≤ max wl wr then 2 ^ 64 - 1 else 2 ^ max wl wr - 1) rv < lv then
         report_violation st2 (Violation.constantMathOverflow lv rv)
       else st2) :=
  eval_plus_closed_form e1 e2 st st1 st2 lv wl rv wr h1 h2

/-- C7 witness: the amended claim at `2'h3 + 2'h3`: width 2 operands, value
3 each, so `max_w = 3`, the overflow report fires (`3 > 3 − 3`), the folded
value is `6` and the reported width is `3`. -/
theorem claim_C7_witness :
    evaluate_expression_properties initial_linter_state
        (Expression.BinaryExpression "+" (Expression.Number "2'h3")
          (Expression.Number "2'h3")) =
      (ExpressionResult.mk (Option.some 6) 3,
       report_violation initial_linter_state (Violation.constantMathOverflow 3 3)) := by
  have h := claim_C7_amended (Expression.Number "2'h3") (Expression.Number "2'h3")
    initial_linter_state initial_linter_state initial_linter_state 3 2 3 2
    (by decide) (by decide)
  rw [h]
  decide

/-! ## Association-list lemmas -/

theorem mem_updateA {α : Type} (l : List (String × α)) (k : String) (v : α) :
    ∀ p ∈ updateA l k v, p = (k, v) ∨ p ∈ l := by
  induction l with
  | nil => simp [updateA]
  | cons q rest ih =>
      intro p hp
      rcases q with ⟨k', v'⟩
      by_cases hk : k' = k
      · simp [updateA, hk] at hp
        rcases hp with h | h
        · exact Or.inl (by simp [h])
        · exact Or.inr (List.mem_cons_of_mem _ h)
      · simp [updateA, hk] at hp
        rcases hp with h | h
        · exact Or.inr (by simp [h])
        · rcases ih p h with h' | h'
          · exact Or.inl h'
          · exact Or.inr (List.mem_cons_of_mem _ h')

theorem lookupA_updateA_self {α : Type} (l : List (String × α)) (k : String) (v : α) :
    lookupA (updateA l k v) k = Option.some v := by
  induction l with
  | nil => simp [updateA, lookupA]
  | cons q rest ih =>
      rcases q with ⟨k', v'⟩
      by_cases hk : k' = k
      · simp [updateA, hk, lookupA]
      · simp [updateA, hk, lookupA, ih]

theorem lookupA_updateA_ne {α : Type} (l : List (String × α)) (k k' : String) (v : α)
    (h : ¬ k = k') : lookupA (updateA l k v) k' = lookupA l k' := by
  induction l with
  | nil => simp [updateA, lookupA, h]
  | cons q rest ih =>
      rcases q with ⟨k1, v1⟩
      by_cases hk : k1 = k
      · subst hk
        simp [updateA, lookupA, h]
      · simp [updateA, hk, lookupA, ih]

theorem dupfree_updateA {α : Type} (l : List (String × α)) (k : String) (v : α)
    (h : dupfree l) : dupfree (updateA l k v) := by
  induction l with
  | nil => simp [updateA, dupfree]
  | cons q rest ih =>
      rcases q with ⟨k', v'⟩
      rw [dupfree, List.pairwise_cons] at h
      by_cases hk : k' = k
      · subst hk
        have hstep : updateA ((k', v') :: rest) k' v = (k', v) :: rest := by
          simp [updateA]
        rw [hstep, dupfree, List.pairwise_cons]
        exact ⟨h.1, h.2⟩
      · have hstep : updateA ((k', v') :: rest) k v = (k', v') :: updateA rest k v := by
          simp [updateA, hk]
        rw [hstep, dupfree, List.pairwise_cons]
        constructor
        · intro p hp
          rcases mem_updateA rest k v p hp with h' | h'
          · subst h'
            exact hk
          · exact h.1 p h'
        · exact ih h.2

theorem lookupA_of_mem {α : Type} (l : List (String × α)) (p : String × α)
    (hd : dupfree l) (hm : p ∈ l) : lookupA l p.1 = Option.some p.2 := by
  induction l with
  | nil => cases hm
  | cons q rest ih =>
      rw [dupfree, List.pairwise_cons] at hd
      rcases List.mem_cons.mp hm with h | h
      · subst h
        simp [lookupA]
      · have hne : ¬ q.1 = p.1 := hd.1 p h
        rcases q with ⟨k', v'⟩
        simp only [lookupA]
        rw [if_neg hne]
        exact ih hd.2 h

/-! ## No violation renders to the design-practice message -/

theorem dp_message_head :
    spec_design_practice_nonblocking_message.data.head? = Option.some 'D' := rfl

theorem append_head_ne (pre rest : List Char) (c : Char)
    (hpre : pre.head? = Option.some c) (hcd : ¬ c = 'D') :
    ¬ (pre ++ rest).head? = Option.some 'D' := by
  rw [List.head?_append, hpre]
  intro h
  rw [show (Option.some c).or rest.head? = Option.some c from rfl] at h
  exact hcd (Option.some.inj h)

theorem render_head_ne_D (v : Violation) :
    ¬ (render_violation v).data.head? = Option.some 'D' := by
  cases v with
  | constantMathOverflow a b =>
      show ¬ ("Constant Math Overflow: " ++ toString a ++ " + " ++
        toString b).data.head? = Option.some 'D'
      simp only [String.data_append, List.append_assoc]
      exact append_head_ne _ _ 'C' rfl (by decide)
  | multiDrivenRegister name =>
      show ¬ ("Multi-Driven Register: '" ++ name ++
        "' is driven by multiple blocks.").data.head? = Option.some 'D'
      simp only [String.data_append, List.append_assoc]
      exact append_head_ne _ _ 'M' rfl (by decide)
  | structuralWidthMismatch a b name =>
      show ¬ ("Structural Width Mismatch (Carry Overflow): Assigning a " ++ toString a ++
        "-bit mathematical result to a " ++ toString b ++ "-bit register '" ++ name ++
        "'.").data.head? = Option.some 'D'
      simp only [String.data_append, List.append_assoc]
      exact append_head_ne _ _ 'S' rfl (by decide)
  | unreachableBlock => decide
  | inferLatch => decide
  | nonFullParallelCase => decide
  | unreachableFsmState name =>
      show ¬ ("Unreachable Finite State Machine State: Parameter '" ++ name ++
        "' never used.").data.head? = Option.some 'D'
      simp only [String.data_append, List.append_assoc]
      exact append_head_ne _ _ 'U' rfl (by decide)
  | uninitializedRegister name =>
      show ¬ ("Un-initialized Register: '" ++ name ++
        "' declared but never driven.").data.head? = Option.some 'D'
      simp only [String.data_append, List.append_assoc]
      exact append_head_ne _ _ 'U' rfl (by decide)

theorem render_violation_not_design_practice (v : Violation) :
    ¬ render_violation v = spec_design_practice_nonblocking_message := by
  intro h
  have hD := congrArg (fun s => s.data.head?) h
  simp only [dp_message_head] at hD
  exact render_head_ne_D v hD

/-! ## Preservation lemmas -/

theorem overflow_not_uninit (v : Violation) (h : overflow_shaped v = true) :
    uninit_shaped v = false := by
  cases v <;> simp_all [overflow_shaped, uninit_shaped]

theorem linter_preserves_refl (st : LinterState) : linter_preserves st st :=
  ⟨rfl, rfl, rfl, rfl, rfl, ⟨[], by simp, by simp⟩,
   fun p hp => Or.inl hp, fun _ h => h, id⟩

theorem linter_preserves_trans {a b c : LinterState}
    (hab : linter_preserves a b) (hbc : linter_preserves b c) : linter_preserves a c := by
  obtain ⟨p1, s1, c1, i1, f1, ⟨δ1, hv1, hs1⟩, m1, t1, d1⟩ := hab
  obtain ⟨p2, s2, c2, i2, f2, ⟨δ2, hv2, hs2⟩, m2, t2, d2⟩ := hbc
  refine ⟨p2.trans p1, s2.trans s1, c2.trans c1, i2.trans i1, f2.trans f1,
    ⟨δ1 ++ δ2, ?_, ?_⟩, ?_, fun n h => t2 n (t1 n h), fun h => d2 (d1 h)⟩
  · rw [hv2, hv1, List.append_assoc]
  · intro v hv
    rcases List.mem_append.mp hv with h | h
    · exact hs1 v h
    · exact hs2 v h
  · intro p hp
    rcases m2 p hp with h | h
    · rcases m1 p h with h' | h'
      · exact Or.inl h'
      · exact Or.inr h'
    · exact Or.inr h

theorem linter_preserves_report (st : LinterState) (v : Violation)
    (h : uninit_shaped v = false) : linter_preserves st (report_violation st v) := by
  refine ⟨rfl, rfl, rfl, rfl, rfl, ⟨[v], rfl, ?_⟩, fun p hp => Or.inl hp, fun _ h => h, id⟩
  intro w hw
  rcases List.mem_singleton.mp hw with rfl
  exact h

/-- The expression evaluator only appends constant-overflow violations to
the state. -/
theorem eval_second_eq (e : Expression) : ∀ st : LinterState,
    ∃ δ, (evaluate_expression_properties st e).2 =
        { st with linter_violations := st.linter_violations ++ δ } ∧
      ∀ v ∈ δ, overflow_shaped v = true := by
  induction e with
  | Identifier n =>
      intro st
      refine ⟨[], ?_, by simp⟩
      cases hl : lookupA st.evaluated_parameter_values n with
      | some v => simp [evaluate_expression_properties, hl]
      | none =>
          cases hw : lookupA st.evaluated_signal_widths n with
          | some w => simp [evaluate_expression_properties, hl, hw]
          | none => simp [evaluate_expression_properties, hl, hw]
  | Number s =>
      intro st
      refine ⟨[], ?_, by simp⟩
      cases hp : parse_verilog_number s with
      | some cv => simp [evaluate_expression_properties, hp]
      | none => simp [evaluate_expression_properties, hp]
  | BinaryExpression op l r ihl ihr =>
      intro st
      obtain ⟨δ1, h1, hs1⟩ := ihl st
      rcases hpair1 : evaluate_expression_properties st l with ⟨lres, st1⟩
      rw [hpair1] at h1
      replace h1 : st1 = { st with linter_violations := st.linter_violations ++ δ1 } := h1
      obtain ⟨δ2, h2, hs2⟩ := ihr st1
      rcases hpair2 : evaluate_expression_properties st1 r with ⟨rres, st2⟩
      rw [hpair2] at h2
      replace h2 : st2 = { st1 with linter_violations := st1.linter_violations ++ δ2 } := h2
      have hshape : ∀ v ∈ δ1 ++ δ2, overflow_shaped v = true := by
        intro v hv
        rcases List.mem_append.mp hv with h | h
        · exact hs1 v h
        · exact hs2 v h
      have hst2 : st2 = { st with linter_violations := st.linter_violations ++ (δ1 ++ δ2) } := by
        rw [h2, h1]
        simp [List.append_assoc]
      cases hlv : lres.statically_evaluated_value with
      | none =>
          refine ⟨δ1 ++ δ2, ?_, hshape⟩
          simp [evaluate_expression_properties, hpair1, hpair2, hlv, hst2]
      | some lv =>
          cases hrv : rres.statically_evaluated_value with
          | none =>
              refine ⟨δ1 ++ δ2, ?_, hshape⟩
              simp [evaluate_expression_properties, hpair1, hpair2, hlv, hrv, hst2]
          | some rv =>
              by_cases hplus : op = "+"
              · subst hplus
                have hlres : lres = ExpressionResult.mk (Option.some lv) lres.bit_width_size := by
                  rw [← hlv]
                have hrres : rres = ExpressionResult.mk (Option.some rv) rres.bit_width_size := by
                  rw [← hrv]
                have happ := eval_plus_closed_form l r st st1 st2 lv lres.bit_width_size
                  rv rres.bit_width_size (by rw [hpair1, ← hlres]) (by rw [hpair2, ← hrres])
                by_cases hovf :
                  sub64 (if 64 ≤ max lres.bit_width_size rres.bit_width_size then 2 ^ 64 - 1
                    else 2 ^ max lres.bit_width_size rres.bit_width_size - 1) rv < lv
                · refine ⟨δ1 ++ δ2 ++ [Violation.constantMathOverflow lv rv], ?_, ?_⟩
                  · rw [happ]
                    show (if sub64 (if 64 ≤ max lres.bit_width_size rres.bit_width_size then
                        2 ^ 64 - 1 else 2 ^ max lres.bit_width_size rres.bit_width_size - 1)
                        rv < lv then
                        report_violation st2 (Violation.constantMathOverflow lv rv)
                      else st2) = _
                    rw [if_pos hovf, hst2]
                    simp [report_violation, List.append_assoc]
                  · intro v hv
                    rcases List.mem_append.mp hv with h | h
                    · exact hshape v h
                    · rcases List.mem_singleton.mp h with rfl
                      rfl
                · refine ⟨δ1 ++ δ2, ?_, hshape⟩
                  rw [happ]
                  show (if sub64 (if 64 ≤ max lres.bit_width_size rres.bit_width_size then
                      2 ^ 64 - 1 else 2 ^ max lres.bit_width_size rres.bit_width_size - 1)
                      rv < lv then
                      report_violation st2 (Violation.constantMathOverflow lv rv)
                    else st2) = _
                  rw [if_neg hovf, hst2]
              · by_cases hminus : op = "-"
                · subst hminus
                  refine ⟨δ1 ++ δ2, ?_, hshape⟩
                  simp [evaluate_expression_properties, hpair1, hpair2, hlv, hrv, hplus,
                    hst2]
                · refine ⟨δ1 ++ δ2, ?_, hshape⟩
                  simp [evaluate_expression_properties, hpair1, hpair2, hlv, hrv, hplus,
                    hminus, hst2]

theorem linter_preserves_eval (st : LinterState) (e : Expression) :
    linter_preserves st (evaluate_expression_properties st e).2 := by
  obtain ⟨δ, h, hs⟩ := eval_second_eq e st
  rw [h]
  refine ⟨rfl, rfl, rfl, rfl, rfl, ⟨δ, rfl, fun v hv => overflow_not_uninit v (hs v hv)⟩,
    fun p hp => Or.inl hp, fun _ h => h, id⟩

theorem linter_preserves_write_true (st : LinterState) (name : String) :
    linter_preserves st
      { st with is_register_written_to := updateA st.is_register_written_to name true } := by
  refine ⟨rfl, rfl, rfl, rfl, rfl, ⟨[], by simp, by simp⟩, ?_, ?_, ?_⟩
  · intro p hp
    rcases mem_updateA st.is_register_written_to name true p hp with h | h
    · exact Or.inr (by rw [h])
    · exact Or.inl h
  · intro n h
    by_cases hn : name = n
    · subst hn
      exact lookupA_updateA_self st.is_register_written_to name true
    · rw [lookupA_updateA_ne st.is_register_written_to name n true hn]
      exact h
  · exact dupfree_updateA st.is_register_written_to name true

theorem linter_preserves_set_driven (st : LinterState) (d : List (String × Option Nat)) :
    linter_preserves st { st with register_driven_by_block := d } :=
  ⟨rfl, rfl, rfl, rfl, rfl, ⟨[], by simp, by simp⟩, fun p hp => Or.inl hp, fun _ h => h, id⟩

theorem linter_preserves_set_used (st : LinterState) (u : List String) :
    linter_preserves st { st with used_case_statement_items := u } :=
  ⟨rfl, rfl, rfl, rfl, rfl, ⟨[], by simp, by simp⟩, fun p hp => Or.inl hp, fun _ h => h, id⟩

theorem mark_register_written_preserves (st : LinterState) (name : String) :
    linter_preserves st (mark_register_written st name) :=
  linter_preserves_write_true st name

theorem check_multiple_drivers_preserves (st : LinterState) (name : String) :
    linter_preserves st (check_multiple_drivers st name) := by
  unfold check_multiple_drivers
  split
  · split
    · exact linter_preserves_report _ _ rfl
    · exact linter_preserves_refl _
  · exact linter_preserves_refl _

theorem record_driving_block_preserves (st : LinterState) (name : String) :
    linter_preserves st (record_driving_block st name) :=
  linter_preserves_set_driven st _

theorem check_assignment_width_preserves (st : LinterState) (name : String) (w : Nat) :
    linter_preserves st (check_assignment_width st name w) := by
  unfold check_assignment_width
  split
  · split
    · exact linter_preserves_report _ _ rfl
    · exact linter_preserves_refl _
  · exact linter_preserves_refl _

/-! ## Statement analysis only appends violations and drives registers -/

theorem analyze_nonblocking_assignment_preserves (st : LinterState) (lhs rhs : Expression) :
    linter_preserves st (analyze_nonblocking_assignment st lhs rhs) := by
  rcases hpair : evaluate_expression_properties st rhs with ⟨rres, st1⟩
  have hev : linter_preserves st st1 := by
    have h := linter_preserves_eval st rhs
    rwa [hpair] at h
  cases lhs with
  | Identifier name =>
      simp only [analyze_nonblocking_assignment, hpair]
      exact linter_preserves_trans hev (linter_preserves_trans (linter_preserves_trans
        (linter_preserves_trans (mark_register_written_preserves st1 name)
          (check_multiple_drivers_preserves _ name))
        (record_driving_block_preserves _ name))
        (check_assignment_width_preserves _ name rres.bit_width_size))
  | Number s' =>
      simp only [analyze_nonblocking_assignment, hpair]
      exact hev
  | BinaryExpression op a b =>
      simp only [analyze_nonblocking_assignment, hpair]
      exact hev

theorem check_if_statement_condition_preserves (st : LinterState) (c : Expression)
    (hb : Bool) : linter_preserves st (check_if_statement_condition st c hb) := by
  rcases hpair : evaluate_expression_properties st c with ⟨cres, st1⟩
  have hev : linter_preserves st st1 := by
    have h := linter_preserves_eval st c
    rwa [hpair] at h
  simp only [check_if_statement_condition, hpair]
  rcases hv : cres.statically_evaluated_value with _ | v <;> simp only [hv]
  · split
    · exact linter_preserves_trans hev
        (linter_preserves_report _ Violation.inferLatch rfl)
    · exact hev
  · by_cases hz : v = 0 <;> simp only [hz, if_true, if_false, if_pos, if_neg]
    · split
      · exact linter_preserves_trans
          (linter_preserves_trans hev
            (linter_preserves_report _ Violation.unreachableBlock rfl))
          (linter_preserves_report _ Violation.inferLatch rfl)
      · exact linter_preserves_trans hev
          (linter_preserves_report _ Violation.unreachableBlock rfl)
    · split
      · exact linter_preserves_trans hev
          (linter_preserves_report _ Violation.inferLatch rfl)
      · exact hev

theorem record_case_selector_preserves (st : LinterState) (sel : Expression) :
    linter_preserves st (record_case_selector st sel) := by
  cases sel with
  | Identifier name =>
      simp only [record_case_selector]
      split
      · exact linter_preserves_refl st
      · exact linter_preserves_set_used st _
  | Number s' => exact linter_preserves_refl st
  | BinaryExpression op a b => exact linter_preserves_refl st

mutual
theorem analyze_statement_preserves (s : Statement) :
    ∀ st : LinterState, linter_preserves st (analyze_statement_for_violations st s) := by
  cases s with
  | NonBlockingAssignment lhs rhs =>
      intro st
      exact analyze_nonblocking_assignment_preserves st lhs rhs
  | IfStatement c t e =>
      intro st
      exact linter_preserves_trans
        (linter_preserves_trans (check_if_statement_condition_preserves st c (has_branch e))
          (analyze_statement_preserves t _))
        (analyze_opt_preserves e _)
  | BlockStatement ss =>
      intro st
      exact analyze_seq_preserves ss st
  | CaseStatement c br d =>
      intro st
      exact linter_preserves_trans
        (linter_preserves_trans (linter_preserves_eval st c)
          (analyze_case_default_preserves d _))
        (analyze_brs_preserves br _)

theorem analyze_case_default_preserves (o : OptStatement) :
    ∀ st : LinterState, linter_preserves st (analyze_case_default st o) := by
  cases o with
  | none =>
      intro st
      exact linter_preserves_report st Violation.nonFullParallelCase rfl
  | some d =>
      intro st
      exact analyze_statement_preserves d st

theorem analyze_opt_preserves (o : OptStatement) :
    ∀ st : LinterState, linter_preserves st (analyze_opt_statement st o) := by
  cases o with
  | none =>
      intro st
      exact linter_preserves_refl st
  | some s =>
      intro st
      exact analyze_statement_preserves s st

theorem analyze_seq_preserves (ss : StatementList) :
    ∀ st : LinterState, linter_preserves st (analyze_statement_seq st ss) := by
  cases ss with
  | nil =>
      intro st
      exact linter_preserves_refl st
  | cons s rest =>
      intro st
      exact linter_preserves_trans (analyze_statement_preserves s st)
        (analyze_seq_preserves rest _)

theorem analyze_brs_preserves (br : CaseBranchList) :
    ∀ st : LinterState, linter_preserves st (analyze_case_branches st br) := by
  cases br with
  | nil =>
      intro st
      exact linter_preserves_refl st
  | cons sel body rest =>
      intro st
      exact linter_preserves_trans
        (linter_preserves_trans (record_case_selector_preserves st sel)
          (analyze_statement_preserves body _))
        (analyze_brs_preserves rest _)
end

/-! ## Accessors for the preservation pack -/

theorem linter_preserves_lookup_true {a b : LinterState} (h : linter_preserves a b)
    (n : String) (hl : lookupA a.is_register_written_to n = Option.some true) :
    lookupA b.is_register_written_to n = Option.some true := by
  obtain ⟨_, _, _, _, _, _, _, ht, _⟩ := h
  exact ht n hl

theorem linter_preserves_violations {a b : LinterState} (h : linter_preserves a b) :
    ∃ δ, b.linter_violations = a.linter_violations ++ δ ∧
      ∀ v ∈ δ, uninit_shaped v = false := by
  obtain ⟨_, _, _, _, _, hδ, _, _, _⟩ := h
  exact hδ

theorem linter_preserves_writ_mem {a b : LinterState} (h : linter_preserves a b) :
    ∀ p ∈ b.is_register_written_to, p ∈ a.is_register_written_to ∨ p.2 = true := by
  obtain ⟨_, _, _, _, _, _, hm, _, _⟩ := h
  exact hm

theorem linter_preserves_dupfree {a b : LinterState} (h : linter_preserves a b)
    (hd : dupfree a.is_register_written_to) : dupfree b.is_register_written_to := by
  obtain ⟨_, _, _, _, _, _, _, _, hdf⟩ := h
  exact hdf hd

/-! ## Written-register table bookkeeping of the helper functions -/

theorem report_violation_writ (st : LinterState) (v : Violation) :
    (report_violation st v).is_register_written_to = st.is_register_written_to := rfl

theorem check_multiple_drivers_writ (st : LinterState) (n : String) :
    (check_multiple_drivers st n).is_register_written_to = st.is_register_written_to := by
  unfold check_multiple_drivers
  split
  · split <;> rfl
  · rfl

theorem record_driving_block_writ (st : LinterState) (n : String) :
    (record_driving_block st n).is_register_written_to = st.is_register_written_to := rfl

theorem check_assignment_width_writ (st : LinterState) (n : String) (w : Nat) :
    (check_assignment_width st n w).is_register_written_to = st.is_register_written_to := by
  unfold check_assignment_width
  split
  · split <;> rfl
  · rfl

theorem eval_writ (st : LinterState) (e : Expression) :
    (evaluate_expression_properties st e).2.is_register_written_to =
      st.is_register_written_to := by
  obtain ⟨δ, h, _⟩ := eval_second_eq e st
  rw [h]

theorem mark_register_written_lookup (st : LinterState) (n : String) :
    lookupA (mark_register_written st n).is_register_written_to n = Option.some true := by
  unfold mark_register_written
  exact lookupA_updateA_self st.is_register_written_to n true

/-! ## An assignment to a name sets its written flag -/

mutual
theorem analyze_statement_assigned (s : Statement) :
    ∀ (st : LinterState) (n : String), assigns_name n s = true →
      lookupA (analyze_statement_for_violations st s).is_register_written_to n =
        Option.some true := by
  cases s with
  | NonBlockingAssignment lhs rhs =>
      intro st n h
      cases lhs with
      | Identifier m =>
          have hm : m = n := by simpa [assigns_name] using h
          subst hm
          rcases hpair : evaluate_expression_properties st rhs with ⟨rres, st1⟩
          simp only [analyze_statement_for_violations, analyze_nonblocking_assignment, hpair]
          rw [check_assignment_width_writ, record_driving_block_writ,
            check_multiple_drivers_writ]
          exact mark_register_written_lookup st1 m
      | Number s' => simp [assigns_name] at h
      | BinaryExpression op a b => simp [assigns_name] at h
  | IfStatement c t e =>
      intro st n h
      have h' : assigns_name n t = true ∨ assigns_name_opt n e = true := by
        simpa [assigns_name] using h
      simp only [analyze_statement_for_violations]
      rcases h' with ht | he
      · exact linter_preserves_lookup_true (analyze_opt_preserves e _) n
          (analyze_statement_assigned t _ n ht)
      · exact analyze_opt_assigned e _ n he
  | BlockStatement ss =>
      intro st n h
      have h' : assigns_name_seq n ss = true := by simpa [assigns_name] using h
      simp only [analyze_statement_for_violations]
      exact analyze_seq_assigned ss st n h'
  | CaseStatement c br d =>
      intro st n h
      have h' : assigns_name_brs n br = true ∨ assigns_name_opt n d = true := by
        simpa [assigns_name] using h
      simp only [analyze_statement_for_violations]
      rcases h' with hb | hd
      · exact analyze_brs_assigned br _ n hb
      · exact linter_preserves_lookup_true (analyze_brs_preserves br _) n
          (analyze_case_default_assigned d _ n hd)

theorem analyze_case_default_assigned (o : OptStatement) :
    ∀ (st : LinterState) (n : String), assigns_name_opt n o = true →
      lookupA (analyze_case_default st o).is_register_written_to n = Option.some true := by
  cases o with
  | none =>
      intro st n h
      simp [assigns_name_opt] at h
  | some d =>
      intro st n h
      have h' : assigns_name n d = true := by simpa [assigns_name_opt] using h
      exact analyze_statement_assigned d st n h'

theorem analyze_opt_assigned (o : OptStatement) :
    ∀ (st : LinterState) (n : String), assigns_name_opt n o = true →
      lookupA (analyze_opt_statement st o).is_register_written_to n = Option.some true := by
  cases o with
  | none =>
      intro st n h
      simp [assigns_name_opt] at h
  | some s =>
      intro st n h
      have h' : assigns_name n s = true := by simpa [assigns_name_opt] using h
      exact analyze_statement_assigned s st n h'

theorem analyze_seq_assigned (ss : StatementList) :
    ∀ (st : LinterState) (n : String), assigns_name_seq n ss = true →
      lookupA (analyze_statement_seq st ss).is_register_written_to n = Option.some true := by
  cases ss with
  | nil =>
      intro st n h
      simp [assigns_name_seq] at h
  | cons s rest =>
      intro st n h
      have h' : assigns_name n s = true ∨ assigns_name_seq n rest = true := by
        simpa [assigns_name_seq] using h
      simp only [analyze_statement_seq]
      rcases h' with hs | hr
      · exact linter_preserves_lookup_true (analyze_seq_preserves rest _) n
          (analyze_statement_assigned s st n hs)
      · exact analyze_seq_assigned rest _ n hr

theorem analyze_brs_assigned (br : CaseBranchList) :
    ∀ (st : LinterState) (n : String), assigns_name_brs n br = true →
      lookupA (analyze_case_branches st br).is_register_written_to n = Option.some true := by
  cases br with
  | nil =>
      intro st n h
      simp [assigns_name_brs] at h
  | cons sel body rest =>
      intro st n h
      have h' : assigns_name n body = true ∨ assigns_name_brs n rest = true := by
        simpa [assigns_name_brs] using h
      simp only [analyze_case_branches]
      rcases h' with hb | hr
      · exact linter_preserves_lookup_true (analyze_brs_preserves rest _) n
          (analyze_statement_assigned body _ n hb)
      · exact analyze_brs_assigned rest _ n hr
end

/-! ## Violation shapes -/

theorem uninit_shaped_false_ne (v : Violation) (n : String)
    (h : uninit_shaped v = false) : ¬ v = Violation.uninitializedRegister n := by
  intro he
  subst he
  simp [uninit_shaped] at h

theorem fsm_shaped_ne_uninit (v : Violation) (n : String)
    (h : fsm_shaped v = true) : ¬ v = Violation.uninitializedRegister n := by
  intro he
  subst he
  simp [fsm_shaped] at h

/-! ## Pass 1 (parameters) -/

theorem record_parameter_value_writ (st : LinterState) (name : String) (v : Option Nat) :
    (record_parameter_value st name v).is_register_written_to =
      st.is_register_written_to := by
  cases v <;> rfl

theorem record_parameter_value_violations (st : LinterState) (name : String)
    (v : Option Nat) :
    (record_parameter_value st name v).linter_violations = st.linter_violations := by
  cases v <;> rfl

theorem analyze_parameters_spec (ps : List Parameter) : ∀ st : LinterState,
    (analyze_parameters st ps).is_register_written_to = st.is_register_written_to ∧
    ∃ δ, (analyze_parameters st ps).linter_violations = st.linter_violations ++ δ ∧
      ∀ v ∈ δ, uninit_shaped v = false := by
  induction ps with
  | nil =>
      intro st
      exact ⟨rfl, ⟨[], by simp [analyze_parameters], by simp⟩⟩
  | cons p rest ih =>
      intro st
      simp only [analyze_parameters]
      rcases hpair : evaluate_expression_properties (add_fsm_state_candidate st p.parameter_name)
          p.default_value_expression with ⟨r, st2⟩
      obtain ⟨δ0, hδ0, hs0⟩ := eval_second_eq p.default_value_expression
        (add_fsm_state_candidate st p.parameter_name)
      rw [hpair] at hδ0
      replace hδ0 : st2 = { add_fsm_state_candidate st p.parameter_name with
          linter_violations :=
            (add_fsm_state_candidate st p.parameter_name).linter_violations ++ δ0 } := hδ0
      obtain ⟨hw, δ1, hδ1, hs1⟩ :=
        ih (record_parameter_value st2 p.parameter_name r.statically_evaluated_value)
      refine ⟨?_, δ0 ++ δ1, ?_, ?_⟩
      · rw [hw, record_parameter_value_writ, hδ0]
        rfl
      · rw [hδ1, record_parameter_value_violations, hδ0]
        simp [add_fsm_state_candidate, List.append_assoc]
      · intro w hw'
        rcases List.mem_append.mp hw' with h | h
        · exact overflow_not_uninit w (hs0 w h)
        · exact hs1 w h

/-! ## Pass 2 (ports) -/

theorem evaluate_port_width_spec (b : Option BitRange) (st : LinterState) :
    (evaluate_port_width st b).2.is_register_written_to = st.is_register_written_to ∧
    ∃ δ, (evaluate_port_width st b).2.linter_violations = st.linter_violations ++ δ ∧
      ∀ v ∈ δ, uninit_shaped v = false := by
  cases b with
  | none => exact ⟨rfl, ⟨[], by simp [evaluate_port_width], by simp⟩⟩
  | some br =>
      rcases hp1 : evaluate_expression_properties st br.most_significant_bit with ⟨m1, stA⟩
      obtain ⟨δ1, hδ1, hs1⟩ := eval_second_eq br.most_significant_bit st
      rw [hp1] at hδ1
      replace hδ1 : stA = { st with linter_violations := st.linter_violations ++ δ1 } := hδ1
      rcases hp2 : evaluate_expression_properties stA br.least_significant_bit with ⟨l1, stB⟩
      obtain ⟨δ2, hδ2, hs2⟩ := eval_second_eq br.least_significant_bit stA
      rw [hp2] at hδ2
      replace hδ2 : stB = { stA with linter_violations := stA.linter_violations ++ δ2 } := hδ2
      have hB : stB = { st with linter_violations := st.linter_violations ++ (δ1 ++ δ2) } := by
        rw [hδ2, hδ1]
        simp [List.append_assoc]
      have hshape : ∀ v ∈ δ1 ++ δ2, uninit_shaped v = false := by
        intro v hv
        rcases List.mem_append.mp hv with h | h
        · exact overflow_not_uninit v (hs1 v h)
        · exact overflow_not_uninit v (hs2 v h)
      rcases hm : m1.statically_evaluated_value with _ | mv <;>
        rcases hl : l1.statically_evaluated_value with _ | lv <;>
        simp only [evaluate_port_width, hp1, hp2, hm, hl] <;>
        exact ⟨by rw [hB], ⟨δ1 ++ δ2, by rw [hB], hshape⟩⟩

theorem record_output_register_violations (st : LinterState) (port : Port) :
    (record_output_register st port).linter_violations = st.linter_violations := by
  unfold record_output_register
  split <;> rfl

theorem record_output_register_writ_mem (st : LinterState) (port : Port) :
    ∀ p ∈ (record_output_register st port).is_register_written_to,
      p ∈ st.is_register_written_to ∨
      (port.direction = PortDirection.Output ∧ port.is_register_type = true ∧
        port.port_name = p.1) := by
  unfold record_output_register
  split
  · intro p hp
    rcases mem_updateA st.is_register_written_to port.port_name false p hp with h | h
    · rename_i hcond
      exact Or.inr ⟨hcond.2, hcond.1, by rw [h]⟩
    · exact Or.inl h
  · intro p hp
    exact Or.inl hp

theorem record_output_register_dupfree (st : LinterState) (port : Port)
    (hd : dupfree st.is_register_written_to) :
    dupfree (record_output_register st port).is_register_written_to := by
  unfold record_output_register
  split
  · exact dupfree_updateA st.is_register_written_to port.port_name false hd
  · exact hd

theorem analyze_ports_spec (ports : List Port) : ∀ st : LinterState,
    (∀ p ∈ (analyze_ports st ports).is_register_written_to,
        p ∈ st.is_register_written_to ∨
        ∃ port ∈ ports, port.direction = PortDirection.Output ∧
          port.is_register_type = true ∧ port.port_name = p.1) ∧
    (dupfree st.is_register_written_to →
        dupfree (analyze_ports st ports).is_register_written_to) ∧
    ∃ δ, (analyze_ports st ports).linter_violations = st.linter_violations ++ δ ∧
      ∀ v ∈ δ, uninit_shaped v = false := by
  induction ports with
  | nil =>
      intro st
      exact ⟨fun p hp => Or.inl hp, id, ⟨[], by simp [analyze_ports], by simp⟩⟩
  | cons port rest ih =>
      intro st
      simp only [analyze_ports]
      rcases hpw : evaluate_port_width st port.bit_range with ⟨w, st1⟩
      obtain ⟨hw1, δ1, hδ1, hs1⟩ := evaluate_port_width_spec port.bit_range st
      rw [hpw] at hw1 hδ1
      obtain ⟨hmem, hdf, δ2, hδ2, hs2⟩ :=
        ih (record_output_register (record_port_width st1 port.port_name w) port)
      refine ⟨?_, ?_, δ1 ++ δ2, ?_, ?_⟩
      · intro p hp
        rcases hmem p hp with h | h
        · rcases record_output_register_writ_mem (record_port_width st1 port.port_name w)
              port p h with h' | h'
          · rw [show (record_port_width st1 port.port_name w).is_register_written_to =
                st1.is_register_written_to from rfl, hw1] at h'
            exact Or.inl h'
          · exact Or.inr ⟨port, List.mem_cons_self port rest, h'⟩
        · obtain ⟨q, hq, hq2⟩ := h
          exact Or.inr ⟨q, List.mem_cons_of_mem port hq, hq2⟩
      · intro hd
        apply hdf
        apply record_output_register_dupfree
        rw [show (record_port_width st1 port.port_name w).is_register_written_to =
          st1.is_register_written_to from rfl, hw1]
        exact hd
      · rw [hδ2, record_output_register_violations,
          show (record_port_width st1 port.port_name w).linter_violations =
            st1.linter_violations from rfl, hδ1, List.append_assoc]
      · intro v hv
        rcases List.mem_append.mp hv with h | h
        · exact hs1 v h
        · exact hs2 v h

/-! ## Pass 3 (always blocks) -/

theorem set_block_context_writ (st : LinterState) (idx : Nat) (c : Bool) :
    (set_block_context st idx c).is_register_written_to = st.is_register_written_to := rfl

theorem clear_block_context_writ (st : LinterState) :
    (clear_block_context st).is_register_written_to = st.is_register_written_to := rfl

theorem analyze_items_spec (items : List ModuleItem) : ∀ (st : LinterState) (idx : Nat),
    (∀ p ∈ (analyze_items st idx items).is_register_written_to,
        p ∈ st.is_register_written_to ∨ p.2 = true) ∧
    (∀ n, lookupA st.is_register_written_to n = Option.some true →
        lookupA (analyze_items st idx items).is_register_written_to n = Option.some true) ∧
    (dupfree st.is_register_written_to →
        dupfree (analyze_items st idx items).is_register_written_to) ∧
    ∃ δ, (analyze_items st idx items).linter_violations = st.linter_violations ++ δ ∧
      ∀ v ∈ δ, uninit_shaped v = false := by
  induction items with
  | nil =>
      intro st idx
      exact ⟨fun p hp => Or.inl hp, fun _ h => h, id,
        ⟨[], by simp [analyze_items], by simp⟩⟩
  | cons it rest ih =>
      intro st idx
      cases it with
      | alwaysBlock ab =>
          simp only [analyze_items]
          have hpack := analyze_statement_preserves ab.body_statement
            (set_block_context st idx (is_combinational_block ab))
          obtain ⟨hmem2, hlk2, hdf2, δb, hδb, hsb⟩ :=
            ih (clear_block_context
              (analyze_statement_for_violations
                (set_block_context st idx (is_combinational_block ab)) ab.body_statement))
              (idx + 1)
          obtain ⟨δa, hδa, hsa⟩ := linter_preserves_violations hpack
          refine ⟨?_, ?_, ?_, δa ++ δb, ?_, ?_⟩
          · intro p hp
            rcases hmem2 p hp with h | h
            · rw [clear_block_context_writ] at h
              rcases linter_preserves_writ_mem hpack p h with h' | h'
              · rw [set_block_context_writ] at h'
                exact Or.inl h'
              · exact Or.inr h'
            · exact Or.inr h
          · intro n hl
            apply hlk2
            rw [clear_block_context_writ]
            exact linter_preserves_lookup_true hpack n hl
          · intro hd
            apply hdf2
            rw [clear_block_context_writ]
            exact linter_preserves_dupfree hpack hd
          · rw [hδb, show (clear_block_context
                (analyze_statement_for_violations
                  (set_block_context st idx (is_combinational_block ab))
                  ab.body_statement)).linter_violations =
                (analyze_statement_for_violations
                  (set_block_context st idx (is_combinational_block ab))
                  ab.body_statement).linter_violations from rfl, hδa,
              List.append_assoc]
            rfl
          · intro v hv
            rcases List.mem_append.mp hv with h | h
            · exact hsa v h
            · exact hsb v h

theorem analyze_items_assigned (items : List ModuleItem) :
    ∀ (st : LinterState) (idx : Nat) (n : String),
      (∃ it ∈ items, module_item_assigns n it = true) →
      lookupA (analyze_items st idx items).is_register_written_to n = Option.some true := by
  induction items with
  | nil =>
      intro st idx n h
      obtain ⟨it, hit, _⟩ := h
      cases hit
  | cons it rest ih =>
      intro st idx n h
      cases it with
      | alwaysBlock ab =>
          simp only [analyze_items]
          obtain ⟨it', hit', ha⟩ := h
          rcases List.mem_cons.mp hit' with heq | hmem
          · subst heq
            have ha' : assigns_name n ab.body_statement = true := ha
            apply (analyze_items_spec rest _ (idx + 1)).2.1
            rw [clear_block_context_writ]
            exact analyze_statement_assigned ab.body_statement
              (set_block_context st idx (is_combinational_block ab)) n ha'
          · exact ih _ (idx + 1) n ⟨it', hmem, ha⟩

/-! ## Pass 4 (post-checks) -/

theorem check_fsm_go_spec (l : List String) : ∀ st : LinterState,
    (check_fsm_go st l).is_register_written_to = st.is_register_written_to ∧
    ∃ δ, (check_fsm_go st l).linter_violations = st.linter_violations ++ δ ∧
      ∀ v ∈ δ, fsm_shaped v = true := by
  induction l with
  | nil =>
      intro st
      exact ⟨rfl, ⟨[], by simp [check_fsm_go], by simp⟩⟩
  | cons name rest ih =>
      intro st
      simp only [check_fsm_go]
      by_cases h1 : has_substring name "STATE" = true <;>
        simp only [h1, if_true, if_false, if_pos, if_neg, Bool.false_eq_true]
      · by_cases h2 : st.used_case_statement_items.contains name = true <;>
          simp only [h2, if_true, if_false, if_pos, if_neg, Bool.false_eq_true]
        · obtain ⟨hw, δ, hδ, hs⟩ := ih st
          exact ⟨hw, δ, hδ, hs⟩
        · obtain ⟨hw, δ, hδ, hs⟩ :=
            ih (report_violation st (Violation.unreachableFsmState name))
          refine ⟨hw, Violation.unreachableFsmState name :: δ, ?_, ?_⟩
          · rw [hδ]
            simp [report_violation]
          · intro v hv
            rcases List.mem_cons.mp hv with h | h
            · rw [h]
              rfl
            · exact hs v h
      · obtain ⟨hw, δ, hδ, hs⟩ := ih st
        exact ⟨hw, δ, hδ, hs⟩

theorem check_uninit_go_noop (l : List (String × Bool)) : ∀ st : LinterState,
    (∀ p ∈ l, p.2 = true) → check_uninit_go st l = st := by
  induction l with
  | nil =>
      intro st _
      rfl
  | cons p rest ih =>
      intro st h
      rcases p with ⟨name, b⟩
      have hb : b = true := h (name, b) (List.mem_cons_self _ _)
      subst hb
      simp only [check_uninit_go, if_true]
      exact ih st (fun q hq => h q (List.mem_cons_of_mem _ hq))

/-! ## C8: output registers assigned in some always block are not reported -/

/-- C8: if every output `reg` port of the module is assigned (with a plain
identifier left-hand side) in some always block, the analysis emits no
Un-initialized Register violation for those ports. -/
theorem claim_C8 (m : VModule)
    (h : ∀ p ∈ m.module_ports, p.direction = PortDirection.Output →
      p.is_register_type = true → module_assigns m p.port_name = true) :
    ∀ p ∈ m.module_ports, p.direction = PortDirection.Output →
      p.is_register_type = true →
      ¬ Violation.uninitializedRegister p.port_name ∈ (analyze_module m).linter_violations := by
  intro p hp hdir hreg
  simp only [analyze_module]
  obtain ⟨hw1, δ1, hδ1, hs1⟩ := analyze_parameters_spec m.module_parameters initial_linter_state
  obtain ⟨hmem2, hdf2, δ2, hδ2, hs2⟩ :=
    analyze_ports_spec m.module_ports (analyze_parameters initial_linter_state m.module_parameters)
  obtain ⟨hmem3, hlk3, hdf3, δ3, hδ3, hs3⟩ :=
    analyze_items_spec m.module_items
      (analyze_ports (analyze_parameters initial_linter_state m.module_parameters) m.module_ports) 0
  obtain ⟨hw4, δ4, hδ4, hs4⟩ :=
    check_fsm_go_spec
      (analyze_items (analyze_ports (analyze_parameters initial_linter_state m.module_parameters)
        m.module_ports) 0 m.module_items).finite_state_machine_states
      (analyze_items (analyze_ports (analyze_parameters initial_linter_state m.module_parameters)
        m.module_ports) 0 m.module_items)
  -- every entry of the written-register table is true after pass 3
  have halltrue : ∀ q ∈ (analyze_items (analyze_ports
      (analyze_parameters initial_linter_state m.module_parameters) m.module_ports) 0
      m.module_items).is_register_written_to, q.2 = true := by
    intro q hq
    rcases hmem3 q hq with hq2 | htrue
    · rcases hmem2 q hq2 with hq1 | hport
      · rw [hw1] at hq1
        cases hq1
      · obtain ⟨port, hport_mem, hpdir, hpreg, hpname⟩ := hport
        have hassigns := h port hport_mem hpdir hpreg
        rw [module_assigns, List.any_eq_true] at hassigns
        obtain ⟨it, hit, hita⟩ := hassigns
        have hlk := analyze_items_assigned m.module_items
          (analyze_ports (analyze_parameters initial_linter_state m.module_parameters)
            m.module_ports) 0 port.port_name ⟨it, hit, hita⟩
        have hdup : dupfree (analyze_items (analyze_ports
            (analyze_parameters initial_linter_state m.module_parameters) m.module_ports) 0
            m.module_items).is_register_written_to := by
          apply hdf3
          apply hdf2
          rw [hw1]
          exact List.Pairwise.nil
        have := lookupA_of_mem _ q hdup hq
        rw [← hpname] at this
        rw [hlk] at this
        exact (Option.some.inj this).symm
    · exact htrue
  -- the uninitialized-register check therefore reports nothing
  rw [check_for_uninitialized_registers, check_for_unreachable_finite_state_machine_states]
  rw [check_uninit_go_noop _ _ (by rw [hw4]; exact halltrue)]
  -- and no earlier pass appended an uninitialized-register violation
  intro hmemfinal
  rw [hδ4, hδ3, hδ2, hδ1] at hmemfinal
  simp only [initial_linter_state, List.nil_append, List.mem_append] at hmemfinal
  rcases hmemfinal with ((h1 | h2) | h3) | h4
  · exact uninit_shaped_false_ne _ p.port_name (hs1 _ h1) rfl
  · exact uninit_shaped_false_ne _ p.port_name (hs2 _ h2) rfl
  · exact uninit_shaped_false_ne _ p.port_name (hs3 _ h3) rfl
  · exact fsm_shaped_ne_uninit _ p.port_name (hs4 _ h4) rfl

/-- C8 witness: the claim applied to a module whose single output `reg` port
is assigned in a sequential always block; no Un-initialized Register
violation is emitted for it. -/
theorem claim_C8_witness :
    ¬ Violation.uninitializedRegister "y" ∈
      (analyze_module example_driven_register_module).linter_violations :=
  claim_C8 example_driven_register_module (by decide)
    (Port.mk PortDirection.Output true Option.none "y") (by decide) (by decide) (by decide)

/-! ## C3: no design-practice violation for non-blocking assignments -/

/-- C3 counterexample: a module with a combinational always block whose body
is the non-blocking assignment `y <= a` produces an empty violation list, so
the Design Practice string the claim demands is not appended. -/
theorem claim_C3_counterexample :
    example_combinational_module.module_items =
      [ModuleItem.alwaysBlock example_combinational_block] ∧
    is_combinational_block example_combinational_block = true ∧
    example_combinational_block.body_statement =
      Statement.NonBlockingAssignment (Expression.Identifier "y") (Expression.Identifier "a") ∧
    (analyze_module example_combinational_module).linter_violations = [] ∧
    ¬ spec_design_practice_nonblocking_message ∈
      ((analyze_module example_combinational_module).linter_violations.map render_violation) := by
  refine ⟨rfl, by decide, rfl, by decide, by decide⟩

/-- C3 amended: the linter has no assignment-flavor check at all: analyzing
a non-blocking assignment only appends violations none of which renders to
the Design Practice message the specification prescribes (in any context,
combinational or not). -/
theorem claim_C3_amended (st : LinterState) (lhs rhs : Expression) :
    ∃ δ, (analyze_statement_for_violations st
        (Statement.NonBlockingAssignment lhs rhs)).linter_violations =
      st.linter_violations ++ δ ∧
      ∀ v ∈ δ, ¬ render_violation v = spec_design_practice_nonblocking_message := by
  obtain ⟨δ, hδ, _⟩ := linter_preserves_violations
    (analyze_statement_preserves (Statement.NonBlockingAssignment lhs rhs) st)
  exact ⟨δ, hδ, fun v _ => render_violation_not_design_practice v⟩

/-! ## C6: the Non Full/Parallel Case check ignores the block kind -/

/-- C6 counterexample: a case statement without a default branch inside an
edge-triggered (non-combinational) always block does produce the Non
Full/Parallel Case violation, contradicting the claim that it is emitted
only in combinational blocks. -/
theorem claim_C6_counterexample :
    is_combinational_block example_sequential_case_block = false ∧
    example_sequential_case_block.body_statement =
      Statement.CaseStatement (Expression.Identifier "y")
        (CaseBranchList.cons (Expression.Number "1'b0")
          (Statement.NonBlockingAssignment (Expression.Identifier "y")
            (Expression.Number "1'b1"))
          CaseBranchList.nil) OptStatement.none ∧
    (analyze_module example_sequential_case_module).linter_violations =
      [Violation.nonFullParallelCase] := by
  refine ⟨by decide, rfl, by decide⟩

/-- C6 amended: the linter emits the Non Full/Parallel Case violation for
every case statement without a default branch, in any state and hence in
any enclosing block (combinational or edge-triggered); with a default
branch present the case statement itself adds no violation — the analysis
just recurses into the default branch. -/
theorem claim_C6_amended :
    (∀ (st : LinterState) (c : Expression) (br : CaseBranchList),
      Violation.nonFullParallelCase ∈
        (analyze_statement_for_violations st
          (Statement.CaseStatement c br OptStatement.none)).linter_violations) ∧
    (∀ (st : LinterState) (c : Expression) (s : Statement),
      analyze_statement_for_violations st
          (Statement.CaseStatement c CaseBranchList.nil (OptStatement.some s)) =
        analyze_statement_for_violations (evaluate_expression_properties st c).2 s) := by
  constructor
  · intro st c br
    simp only [analyze_statement_for_violations, analyze_case_default]
    obtain ⟨δ, hδ, _⟩ := linter_preserves_violations (analyze_brs_preserves br
      (report_violation (evaluate_expression_properties st c).2 Violation.nonFullParallelCase))
    rw [hδ]
    simp [report_violation, List.mem_append]
  · intro st c s
    simp only [analyze_statement_for_violations, analyze_case_default, analyze_case_branches]

/-! ## C2: internal reg/wire declarations are skipped, not parsed -/

/-- C2 counterexample: `module m ( ) ; reg x ; endmodule` parses to a module
with no items at all (the `reg x ;` declaration is skipped and produces no
AST node), and the linter then reports nothing — in particular no
Un-initialized Register violation for the never-assigned internal reg `x`. -/
theorem claim_C2_counterexample :
    parse_module_from_source "module m ( ) ; reg x ; endmodule" =
      PResult.ok (VModule.mk "m" [] [] []) [] ∧
    (analyze_module (VModule.mk "m" [] [] [])).linter_violations = [] := by
  refine ⟨by decide, by decide⟩

/-- C2 amended: a module item beginning with `reg` or `wire` is skipped by
fast-forwarding past its terminating semicolon and produces no AST node:
`skip_declaration` drops everything up to and including the first `;`
token, and a module whose body is a single wire declaration parses to a
module with an empty item list. -/
theorem claim_C2_amended :
    (∀ (decl rest : List Token),
      (∀ t ∈ decl, ¬ (t.type = TokenType.Symbol ∧ t.content = ";")) →
      skip_declaration (decl ++ ⟨TokenType.Symbol, ";"⟩ :: rest) = rest) ∧
    parse_module_from_source "module m ( input a ) ; wire w ; endmodule" =
      PResult.ok (VModule.mk "m" []
        [Port.mk PortDirection.Input false Option.none "a"] []) [] := by
  constructor
  · intro decl rest h
    induction decl with
    | nil => simp [skip_declaration]
    | cons t ts ih =>
        have ht := h t (List.mem_cons_self t ts)
        simp only [List.cons_append, skip_declaration]
        rw [if_neg ht]
        exact ih (fun q hq => h q (List.mem_cons_of_mem t hq))
  · decide

/-- C2 witness: the skip lemma applied to the concrete declaration
`reg x ;` followed by `endmodule`. -/
theorem claim_C2_witness :
    skip_declaration [⟨TokenType.Keyword, "reg"⟩, ⟨TokenType.Identifier, "x"⟩,
        ⟨TokenType.Symbol, ";"⟩, ⟨TokenType.Keyword, "endmodule"⟩] =
      [⟨TokenType.Keyword, "endmodule"⟩] :=
  claim_C2_amended.1 [⟨TokenType.Keyword, "reg"⟩, ⟨TokenType.Identifier, "x"⟩]
    [⟨TokenType.Keyword, "endmodule"⟩] (by decide)

end VerilogLint
